import Mathlib

/-!
Element: the out-of-process audio plugin scanner.

A shallow embedding of `Source/session/PluginManager.cpp`: the supervisor
(`PluginScannerMaster`), the worker (`PluginScannerSlave`: the messages it
builds and reads, and its scan of one format), the scanner front end
(`PluginScanner`) and the plugin manager's reload of the backing file and of
the dead man's pedal.

Conventions of the embedding.

* A `juce::String` is a Lean `String`; a JUCE string is NUL-terminated, so it
  never holds the character `'\x00'`.
* A `juce::MemoryBlock` is the list of its bytes, each a natural number.
* The critical section `lock` does not show in the methods: each is one atomic
  step.  Where the lock is entered and left inside the two handlers is given
  separately, as lists of `Step`s.
* Calls into the JUCE library and the listeners are recorded, in program order,
  as a list of `Effect`s.  What the library answers (did the process start, did
  the message go out, did the file parse) is an input of the step, an `Env`.
* `float` values are kept symbolic (`Progress`).
* The JUCE routines the scanner calls (`String`, `CharPointer_UTF8`,
  `MemoryBlock`, `StringArray`) are not part of the repository; they are
  written after the JUCE library, restricted to the arguments the scanner
  passes.
-/

namespace Element

/-! ## The `juce::String` operations the scanner uses -/

/-- The test `CharPointer_UTF8::isWhitespace`: a space, or a control character
in the range 9 to 13. -/
def isWhitespace (c : Char) : Bool :=
  c == ' ' || (decide (9 ≤ c.toNat) && decide (c.toNat ≤ 13))

/-- The method `String::trim`: drops the whitespace at both ends. -/
def trim (s : String) : String :=
  ⟨(s.data.dropWhile isWhitespace).rdropWhile isWhitespace⟩

/-- The search `CharacterFunctions::indexOf`: the index of the first occurrence
of `sub` in `text`, `none` for the C++ result `-1`. -/
def indexOf : List Char → List Char → Option Nat
  | [], sub => if sub = [] then some 0 else none
  | c :: cs, sub =>
      if sub.isPrefixOf (c :: cs) then some 0
      else (indexOf cs sub).map (· + 1)

/-- The method `String::upToFirstOccurrenceOf (sub, false, false)`: the text
before the first `sub`, the whole string when `sub` does not occur. -/
def upToFirstOccurrenceOf (s sub : String) : String :=
  match indexOf s.data sub.data with
  | none => s
  | some i => ⟨s.data.take i⟩

/-- The method `String::fromFirstOccurrenceOf (sub, false, false)`: the text
after the first `sub`, the empty string when `sub` does not occur. -/
def fromFirstOccurrenceOf (s sub : String) : String :=
  match indexOf s.data sub.data with
  | none => ""
  | some i => ⟨s.data.drop (i + sub.data.length)⟩

/-- The method `StringArray::joinIntoString (separator)`. -/
def joinIntoString (a : List String) (separator : String) : String :=
  separator.intercalate a

/-! ## UTF-8 and `juce::MemoryBlock` -/

/-- A `juce::MemoryBlock`, as the list of its bytes. -/
abbrev MemoryBlock := List Nat

/-- The writer `CharPointer_UTF8::write` on a code point below `0x110000`.
Shifts and masks are written as division and remainder by powers of two. -/
def utf8Write (c : Nat) : List Nat :=
  if c < 0x80 then [c]
  else if c < 0x800 then [0xC0 + c / 0x40, 0x80 + c % 0x40]
  else if c < 0x10000 then
    [0xE0 + c / 0x1000, 0x80 + c / 0x40 % 0x40, 0x80 + c % 0x40]
  else
    [0xF0 + c / 0x40000, 0x80 + c / 0x1000 % 0x40, 0x80 + c / 0x40 % 0x40,
     0x80 + c % 0x40]

/-- The method `String::toRawUTF8`: the UTF-8 bytes of the string (without the
terminating NUL). -/
def toRawUTF8 (s : String) : List Nat :=
  s.data.flatMap fun c => utf8Write c.toNat

/-- The method `String::getNumBytesAsUTF8`. -/
def getNumBytesAsUTF8 (s : String) : Nat := (toRawUTF8 s).length

/-- The constructor `MemoryBlock (data, sizeInBytes)`: a copy of the first
`sizeInBytes` bytes at `data`. -/
def MemoryBlock.copyOf (data : List Nat) (sizeInBytes : Nat) : MemoryBlock :=
  data.take sizeInBytes

/-- The second loop of `CharPointer_UTF8::getAndAdvance`: read up to
`numExtraValues` continuation bytes (`10xxxxxx`), stopping at the first byte
that is not one.  The end of the block counts as such a byte. -/
def readExtraValues : Nat → Nat → List Nat → Nat × List Nat
  | 0, n, data => (n, data)
  | _ + 1, n, [] => (n, [])
  | numExtraValues + 1, n, nextByte :: data =>
      if nextByte / 0x40 = 2 then
        readExtraValues numExtraValues (n * 0x40 + nextByte % 0x40) data
      else (n, nextByte :: data)

/-- The reader `CharPointer_UTF8::getAndAdvance` at a position holding `byte`
followed by `data`: the code point read and the bytes left. -/
def getAndAdvance (byte : Nat) (data : List Nat) : Nat × List Nat :=
  if byte < 0x80 then (byte, data)
  else if byte < 0xC0 then (byte % 0x80, data)
  else if byte < 0xE0 then readExtraValues 1 (byte % 0x40) data
  else if byte < 0xF0 then readExtraValues 2 (byte % 0x20) data
  else readExtraValues 3 (byte % 0x10) data

/-- The characters `String::fromUTF8 (data, size)` builds: code points are read
until the block ends or a NUL shows up.  `fuel` bounds the number of reads. -/
def fromUTF8Aux : Nat → List Nat → List Char
  | 0, _ => []
  | _ + 1, [] => []
  | fuel + 1, byte :: data =>
      if byte = 0 then []
      else
        let r := getAndAdvance byte data
        if r.1 = 0 then [] else Char.ofNat r.1 :: fromUTF8Aux fuel r.2

/-- The method `MemoryBlock::toString`, that is `String::fromUTF8 (data, size)`. -/
def MemoryBlock.toString (mb : MemoryBlock) : String :=
  ⟨fromUTF8Aux mb.length mb⟩

/-! ## The supervisor: `PluginScannerMaster` -/

/-- A `float` progress value, kept symbolic. -/
inductive Progress
  /-- The member initialiser `0.f`. -/
  | zero
  /-- The value `-1.f` set by `resetScannerVariables`. -/
  | minusOne
  /-- The conversion `(float) var (message)`. -/
  | ofVar (message : String)
  deriving DecidableEq, Repr

/-- The data members of `PluginScannerMaster`. -/
structure PluginScannerMaster where
  running : Bool
  progress : Progress
  slaveState : String
  formatNames : List String
  faileFiles : List String
  pluginBeingScanned : String
  deriving DecidableEq, Repr

/-- The members as the constructor leaves them. -/
def PluginScannerMaster.new : PluginScannerMaster :=
  { running := false, progress := Progress.zero, slaveState := "",
    formatNames := [], faileFiles := [], pluginBeingScanned := "" }

/-- A call that leaves the supervisor: into `ChildProcessMaster`, `AsyncUpdater`,
the listener list or the debug log. -/
inductive Effect
  | sendMessageToSlave (mb : MemoryBlock)
  | launchSlaveProcess (timeout flags : Nat)
  | triggerAsyncUpdate
  | audioPluginScanStarted (plugin : String)
  | audioPluginScanProgress (progress : Progress)
  | audioPluginScanFinished
  | dbg (text : String)
  deriving DecidableEq, Repr

/-- What the library answers during one step. -/
structure Env (XmlElement : Type) where
  /-- The result of `ChildProcessMaster::sendMessageToSlave`. -/
  sendMessageToSlave : Bool
  /-- The result of `ChildProcessMaster::launchSlaveProcess`. -/
  launchSlaveProcess : Bool
  /-- The result of `XmlDocument::parse (getSlavePluginListFile())`. -/
  parse : Option XmlElement

/-- The value a method returns, the members afterwards and the calls it made. -/
structure Outcome (α : Type) where
  value : α
  self : PluginScannerMaster
  effects : List Effect

/-- The constant `EL_PLUGIN_SCANNER_DEFAULT_TIMEOUT`. -/
def EL_PLUGIN_SCANNER_DEFAULT_TIMEOUT : Nat := 10000

namespace PluginScannerMaster

/-- The method `PluginScannerMaster::isRunning`. -/
def isRunning (m : PluginScannerMaster) : Bool := m.running

/-- The method `PluginScannerMaster::getSlaveState`. -/
def getSlaveState (m : PluginScannerMaster) : String := m.slaveState

/-- The method `PluginScannerMaster::sendQuitMessage`. -/
def sendQuitMessage {X : Type} (env : Env X) (m : PluginScannerMaster) :
    Outcome Bool :=
  let quitMessage := toRawUTF8 "quit"
  let didQuit := env.sendMessageToSlave
  { value := didQuit
    self := { m with slaveState := "quitting", running := false }
    effects := [Effect.sendMessageToSlave (MemoryBlock.copyOf quitMessage 4)] }

/-- The method `PluginScannerMaster::resetScannerVariables`. -/
def resetScannerVariables (m : PluginScannerMaster) : PluginScannerMaster :=
  { m with pluginBeingScanned := "", progress := Progress.minusOne }

/-- The method `PluginScannerMaster::launchScanner`, with its default arguments. -/
def launchScanner {X : Type} (env : Env X) (m : PluginScannerMaster) :
    Outcome Bool :=
  { value := env.launchSlaveProcess
    self := resetScannerVariables m
    effects := [Effect.launchSlaveProcess EL_PLUGIN_SCANNER_DEFAULT_TIMEOUT 0] }

/-- The method `PluginScannerMaster::startScanning`. -/
def startScanning {X : Type} (env : Env X) (names : List String)
    (m : PluginScannerMaster) : Outcome Bool :=
  if m.isRunning then { value := true, self := m, effects := [] }
  else
    let m1 := { m with slaveState := "waiting", running := false, formatNames := names }
    let l := launchScanner env m1
    let res := l.value
    { value := res, self := { l.self with running := res }, effects := l.effects }

/-- The method `PluginScannerMaster::handleMessageFromSlave`. -/
def handleMessageFromSlave (mb : MemoryBlock) (m : PluginScannerMaster) :
    Outcome Unit :=
  let data := mb.toString
  let type := upToFirstOccurrenceOf data ":"
  let message := fromFirstOccurrenceOf data ":"
  if type = "state" then
    let lastState := m.slaveState
    let m1 := { m with slaveState := message }
    if lastState ≠ m1.slaveState then
      { value := (), self := m1, effects := [Effect.triggerAsyncUpdate] }
    else { value := (), self := m1, effects := [] }
  else if type = "name" then
    { value := ()
      self := { m with pluginBeingScanned := trim message }
      effects := [Effect.audioPluginScanStarted (trim message)] }
  else if type = "progress" then
    let newProgress := Progress.ofVar message
    { value := ()
      self := { m with progress := newProgress }
      effects := [Effect.audioPluginScanProgress newProgress] }
  else { value := (), self := m, effects := [] }

/-- The method `PluginScannerMaster::handleConnectionLost`. -/
def handleConnectionLost (m : PluginScannerMaster) : Outcome Unit :=
  { value := (), self := { m with running := false },
    effects := [Effect.triggerAsyncUpdate] }

end PluginScannerMaster

/-- The state a supervisor method leaves behind when it also reaches into its
owner, the `PluginScanner`: the owner's plugin list, the owner's `master`
pointer (`none` once it is reset to `nullptr`) and the calls made. -/
structure OwnerOutcome (L : Type) where
  list : L
  master : Option PluginScannerMaster
  effects : List Effect

namespace PluginScannerMaster

/-- The method `PluginScannerMaster::updateListAndLaunchSlave`.  The function
`recreateFromXml` is `KnownPluginList::recreateFromXml`, `list` is `owner.list`. -/
def updateListAndLaunchSlave {X L : Type} (recreateFromXml : X → L → L)
    (env : Env X) (list : L) (m : PluginScannerMaster) : OwnerOutcome L :=
  let list1 :=
    match env.parse with
    | some xml => recreateFromXml xml list
    | none => list
  let l := launchScanner env m
  let res := l.value
  { list := list1, master := some { l.self with running := res },
    effects := l.effects }

/-- The method `PluginScannerMaster::handleAsyncUpdate`. -/
def handleAsyncUpdate {X L : Type} (recreateFromXml : X → L → L)
    (env : Env X) (list : L) (m : PluginScannerMaster) : OwnerOutcome L :=
  let state := m.getSlaveState
  if state = "ready" ∧ m.isRunning = true then
    let msg := "scan:" ++ joinIntoString m.formatNames ","
    let mb := MemoryBlock.copyOf (toRawUTF8 msg) msg.length
    { list := list, master := some m, effects := [Effect.sendMessageToSlave mb] }
  else if state = "scanning" then
    if m.isRunning = false then
      let r := updateListAndLaunchSlave recreateFromXml env list m
      { r with effects :=
          Effect.dbg "[EL] a plugin crashed or timed out during scan" :: r.effects }
    else
      { list := list, master := some m,
        effects := [Effect.dbg "[EL] scanning... and running...."] }
  else if state = "finished" then
    { list := list
      master := some { m with running := false, slaveState := "idle" }
      effects := [Effect.dbg "[EL] slave finished scanning",
                  Effect.audioPluginScanFinished] }
  else if state = "waiting" then
    if m.isRunning = false then
      let r := updateListAndLaunchSlave recreateFromXml env list m
      { r with effects := Effect.dbg "[EL] waiting for plugin scanner" :: r.effects }
    else { list := list, master := some m, effects := [] }
  else if m.slaveState = "quitting" then
    { list := list, master := none, effects := [] }
  else
    { list := list, master := some m,
      effects := [Effect.dbg ("[EL] invalid slave state: " ++ state)] }

end PluginScannerMaster

/-! ## The worker's side of the channel: `PluginScannerSlave` -/

namespace PluginScannerSlave

/-- The block `PluginScannerSlave::sendString` hands to `sendMessageToMaster`. -/
def sendString (type message : String) : MemoryBlock :=
  let data := type ++ ":" ++ trim message
  MemoryBlock.copyOf (toRawUTF8 data) (getNumBytesAsUTF8 data)

/-- The block `PluginScannerSlave::sendState` hands to `sendMessageToMaster`. -/
def sendState (state : String) : MemoryBlock := sendString "state" state

end PluginScannerSlave

/-! ## The front end: `PluginScanner` -/

/-- The data members of `PluginScanner` the scan touches: the managed plugin
list and the owned supervisor. -/
structure PluginScanner (L : Type) where
  list : L
  master : Option PluginScannerMaster

namespace PluginScanner

/-- The method `PluginScanner::cancel`. -/
def cancel {X L : Type} (env : Env X) (o : PluginScanner L) :
    PluginScanner L × List Effect :=
  match o.master with
  | some m =>
      let r := m.sendQuitMessage env
      ({ o with master := some r.self }, r.effects)
  | none => (o, [])

/-- The method `PluginScanner::isScanning`. -/
def isScanning {L : Type} (o : PluginScanner L) : Bool :=
  match o.master with
  | some m => m.isRunning
  | none => false

end PluginScanner

/-! ## Reloading the backing file: `PluginManager` -/

namespace PluginManager

/-- The method `PluginManager::restoreUserPlugins (const XmlElement&)` on the
list `priv->allPlugins`; `scanInternalPlugins` is the method of that name. -/
def restoreUserPlugins {X L : Type} (recreateFromXml : X → L → L)
    (scanInternalPlugins : L → L) (xml : X) (allPlugins : L) : L :=
  scanInternalPlugins (recreateFromXml xml allPlugins)

/-- The method `PluginManager::restoreAudioPlugins`; `parse` is the result of
`XmlDocument::parse (file)`. -/
def restoreAudioPlugins {X L : Type} (recreateFromXml : X → L → L)
    (scanInternalPlugins : L → L) (parse : Option X) (allPlugins : L) : L :=
  match parse with
  | some xml => restoreUserPlugins recreateFromXml scanInternalPlugins xml allPlugins
  | none => allPlugins

end PluginManager

/-! ## Delivering callbacks to the supervisor a `PluginScanner` owns -/

/-- A callback JUCE delivers to the supervisor: a message from the worker, the
loss of the connection, or the pending asynchronous update. -/
inductive Event (X : Type)
  | messageFromSlave (mb : MemoryBlock)
  | connectionLost
  | asyncUpdate (env : Env X)

/-- Deliver one callback to the supervisor of `o`.  Once `owner.master` has been
reset there is no object left to call. -/
def deliver {X L : Type} (recreateFromXml : X → L → L) (o : PluginScanner L)
    (e : Event X) : PluginScanner L × List Effect :=
  match o.master with
  | none => (o, [])
  | some m =>
      match e with
      | Event.messageFromSlave mb =>
          let r := m.handleMessageFromSlave mb
          ({ o with master := some r.self }, r.effects)
      | Event.connectionLost =>
          let r := m.handleConnectionLost
          ({ o with master := some r.self }, r.effects)
      | Event.asyncUpdate env =>
          let r := m.handleAsyncUpdate recreateFromXml env o.list
          ({ list := r.list, master := r.master }, r.effects)

/-- Deliver a sequence of callbacks in order, collecting the calls made. -/
def deliverAll {X L : Type} (recreateFromXml : X → L → L) :
    PluginScanner L → List (Event X) → PluginScanner L × List Effect
  | o, [] => (o, [])
  | o, e :: es =>
      let r := deliver recreateFromXml o e
      let rs := deliverAll recreateFromXml r.1 es
      (rs.1, r.2 ++ rs.2)

/-- The call is a `launchSlaveProcess`. -/
def Effect.isLaunch : Effect → Bool
  | Effect.launchSlaveProcess _ _ => true
  | _ => false

/-- The call is a `sendMessageToSlave`. -/
def Effect.isSend : Effect → Bool
  | Effect.sendMessageToSlave _ => true
  | _ => false

/-- The call is one of the three listener notifications. -/
def Effect.isNotification : Effect → Bool
  | Effect.audioPluginScanStarted _ => true
  | Effect.audioPluginScanProgress _ => true
  | Effect.audioPluginScanFinished => true
  | _ => false

/-- The callback is a "state" message from the worker with payload `s`. -/
def Event.reportsState {X : Type} (e : Event X) (s : String) : Bool :=
  match e with
  | Event.messageFromSlave mb =>
      decide (upToFirstOccurrenceOf mb.toString ":" = "state") &&
      decide (fromFirstOccurrenceOf mb.toString ":" = s)
  | _ => false

/-- The supervisor, if there still is one, is not running and its stored state
is neither "scanning" nor "waiting". -/
def PluginScanner.Settled {L : Type} (o : PluginScanner L) : Prop :=
  ∀ m, o.master = some m →
    m.running = false ∧ m.slaveState ≠ "scanning" ∧ m.slaveState ≠ "waiting"

/-- The block `handleAsyncUpdate` sends in state "ready": `msg.toRawUTF8()` cut
to `msg.length()` bytes, for `msg = "scan:" + formatNames.joinIntoString (",")`. -/
def scanRequest (formatNames : List String) : MemoryBlock :=
  MemoryBlock.copyOf (toRawUTF8 ("scan:" ++ joinIntoString formatNames ","))
    ("scan:" ++ joinIntoString formatNames ",").length

/-! ## Concrete runs -/

/-- A step in which the library succeeds at everything and the backing file
does not parse. -/
def envOk : Env Unit :=
  { sendMessageToSlave := true, launchSlaveProcess := true, parse := none }

/-- A step in which the worker process cannot be started. -/
def envNoLaunch : Env Unit :=
  { sendMessageToSlave := false, launchSlaveProcess := false, parse := none }

/-- A step in which the backing file does not parse, over plugin lists that
are lists of identifiers. -/
def envNoParse : Env (List String) :=
  { sendMessageToSlave := true, launchSlaveProcess := true, parse := none }

/-- A plugin list that is not looked into. -/
def noRecreate : Unit → Unit → Unit := fun _ l => l

/-- A `recreateFromXml` that replaces the list by what the file holds. -/
def replaceBy : List String → List String → List String := fun xml _ => xml

/-- A scanner whose supervisor has just started a scan of `formats` and whose
worker process was launched. -/
def started (formats : List String) : PluginScanner Unit :=
  { list := (), master := some (PluginScannerMaster.new.startScanning envOk formats).self }

/-- The scanner after the worker reported "ready" and the scan request went out. -/
def requested (formats : List String) : PluginScanner Unit :=
  (deliverAll noRecreate (started formats)
    [Event.messageFromSlave (PluginScannerSlave.sendState "ready"),
     Event.asyncUpdate envOk]).1

/-- The scanner after `requested` and then `PluginScanner::cancel`. -/
def cancelled (formats : List String) : PluginScanner Unit :=
  ((requested formats).cancel envOk).1

/-- The callbacks of a scan that crashes after the worker reported "scanning",
is relaunched, and whose new worker reports "ready". -/
def crashAndReady : List (Event Unit) :=
  [Event.messageFromSlave (PluginScannerSlave.sendState "scanning"),
   Event.asyncUpdate envOk,
   Event.connectionLost,
   Event.asyncUpdate envOk,
   Event.messageFromSlave (PluginScannerSlave.sendState "ready")]

/-- The scanner after a scan of "VST" ran to the end. -/
def finishedScanner : PluginScanner Unit :=
  (deliverAll noRecreate (requested ["VST"])
    [Event.messageFromSlave (PluginScannerSlave.sendState "scanning"),
     Event.asyncUpdate envOk,
     Event.messageFromSlave (PluginScannerSlave.sendState "finished"),
     Event.asyncUpdate envOk]).1

/-- A supervisor in the middle of a scan. -/
def scanningMaster : PluginScannerMaster :=
  { running := true, progress := Progress.minusOne, slaveState := "scanning",
    formatNames := ["VST"], faileFiles := [], pluginBeingScanned := "" }

/-! ## The worker's reading of a message from the supervisor -/

/-- The scan `CharacterFunctions::findEndOfToken`: the characters of the token
that starts the text, and the text from the break character that ends it on
(empty when the text ran out).  `currentQuoteChar` is `none` for the C++ value 0:
inside a quotation break characters do not end the token. -/
def findEndOfToken (breakCharacters quoteCharacters : List Char) :
    Option Char → List Char → List Char × List Char
  | _, [] => ([], [])
  | currentQuoteChar, c :: text =>
      if currentQuoteChar = none ∧ c ∈ breakCharacters then ([], c :: text)
      else
        let q :=
          if c ∈ quoteCharacters then
            if currentQuoteChar = none then some c
            else if currentQuoteChar = some c then none
            else currentQuoteChar
          else currentQuoteChar
        let r := findEndOfToken breakCharacters quoteCharacters q text
        (c :: r.1, r.2)

/-- The loop of `StringArray::addTokens` on a text that is not empty: add the
token up to the next break character, stop when the text ran out, otherwise go
on behind the break character.  `fuel` bounds the number of tokens. -/
def addTokensLoop (breakCharacters quoteCharacters : List Char) :
    Nat → List Char → List String
  | 0, _ => []
  | fuel + 1, t =>
      let r := findEndOfToken breakCharacters quoteCharacters none t
      match r.2 with
      | [] => [String.mk r.1]
      | _ :: rest =>
          String.mk r.1 :: addTokensLoop breakCharacters quoteCharacters fuel rest

/-- The function `StringArray::fromTokens (text, breakCharacters,
quoteCharacters)`: no token at all for the empty text. -/
def fromTokens (text breakCharacters quoteCharacters : String) : List String :=
  if text.data = [] then []
  else
    addTokensLoop breakCharacters.data quoteCharacters.data (text.data.length + 1)
      text.data

/-- A call the worker makes: `exit`, `triggerAsyncUpdate`, its own `sendString`
(which hands the block to `sendMessageToMaster`), `addToBlacklist` on its plugin
list, or its own `writePluginListNow`. -/
inductive SlaveCall
  | exit (status : Nat)
  | triggerAsyncUpdate
  | sendString (type message : String)
  | addToBlacklist (file : String)
  | writePluginListNow
  deriving DecidableEq, Repr

namespace PluginScannerSlave

/-- The method `PluginScannerSlave::handleMessageFromMaster`: the member
`formatsToScan` afterwards and the calls made.  After `exit (0)` nothing runs. -/
def handleMessageFromMaster (mb : MemoryBlock) (formatsToScan : List String) :
    List String × List SlaveCall :=
  let data := mb.toString
  let type := upToFirstOccurrenceOf data ":"
  let message := fromFirstOccurrenceOf data ":"
  if type = "quit" then (formatsToScan, [SlaveCall.exit 0])
  else if type = "scan" then
    let formats := fromTokens (trim message) "," "'"
    (formats, [SlaveCall.triggerAsyncUpdate])
  else (formatsToScan, [])

end PluginScannerSlave

/-! ## Starting a scan from the front end -/

/-- A call `PluginScanner::scanForAudioPlugins` makes: a call of the supervisor
it owns, the deletion of the backing file, or the construction of a new
supervisor. -/
inductive ScannerCall
  | master (e : Effect)
  | deleteSlavePluginListFile
  | newPluginScannerMaster
  deriving DecidableEq, Repr

namespace PluginScanner

/-- The method `PluginScanner::scanForAudioPlugins (const StringArray&)`. -/
def scanForAudioPlugins {X L : Type} (env : Env X) (formats : List String)
    (o : PluginScanner L) : PluginScanner L × List ScannerCall :=
  let c := o.cancel env
  let o1 := c.1
  let calls1 := c.2.map ScannerCall.master ++ [ScannerCall.deleteSlavePluginListFile]
  let made : PluginScannerMaster × List ScannerCall :=
    match o1.master with
    | none => (PluginScannerMaster.new, [ScannerCall.newPluginScannerMaster])
    | some m => (m, [])
  let o2 := { o1 with master := some made.1 }
  if made.1.isRunning then (o2, calls1 ++ made.2)
  else
    let r := made.1.startScanning env formats
    ({ o2 with master := some r.self },
     calls1 ++ made.2 ++ r.effects.map ScannerCall.master)

end PluginScanner

/-! ## The critical section inside the two handlers -/

/-- One step of a handler with the critical section made visible: `lock.enter ()`
(a `ScopedLock` is constructed, or a `ScopedUnlock` destroyed), `lock.exit ()`
(the reverse), or a call that leaves the supervisor. -/
inductive Step
  | enter
  | exit
  | call (e : Effect)
  deriving DecidableEq, Repr

/-- The steps of a method that takes a `ScopedLock` for its whole body and
calls nothing: `getSlaveState`, `isRunning`, `resetScannerVariables`. -/
def lockedRead : List Step := [Step.enter, Step.exit]

namespace PluginScannerMaster

/-- The steps of `PluginScannerMaster::handleMessageFromSlave`, in program
order. -/
def handleMessageFromSlaveSteps (mb : MemoryBlock) (m : PluginScannerMaster) :
    List Step :=
  let data := mb.toString
  let type := upToFirstOccurrenceOf data ":"
  let message := fromFirstOccurrenceOf data ":"
  if type = "state" then
    let lastState := m.slaveState
    if lastState ≠ message then
      [Step.enter, Step.exit, Step.call Effect.triggerAsyncUpdate, Step.enter, Step.exit]
    else [Step.enter, Step.exit]
  else if type = "name" then
    [Step.call (Effect.audioPluginScanStarted (trim message)), Step.enter, Step.exit]
  else if type = "progress" then
    [Step.call (Effect.audioPluginScanProgress (Progress.ofVar message)),
     Step.enter, Step.exit]
  else []

/-- The steps of `PluginScannerMaster::updateListAndLaunchSlave`: the launch
(`launchScanner` resets the scanner variables under the lock first), then the
locked assignment of `running`. -/
def updateListAndLaunchSlaveSteps : List Step :=
  lockedRead ++
    [Step.call (Effect.launchSlaveProcess EL_PLUGIN_SCANNER_DEFAULT_TIMEOUT 0)] ++
    [Step.enter, Step.exit]

/-- The steps of `PluginScannerMaster::handleAsyncUpdate`, in program order.
`isRunning ()` is only evaluated where the C++ reaches it. -/
def handleAsyncUpdateSteps (m : PluginScannerMaster) : List Step :=
  let state := m.getSlaveState
  lockedRead ++
  if state = "ready" then
    lockedRead ++
    if m.isRunning = true then
      [Step.call (Effect.sendMessageToSlave (MemoryBlock.copyOf
        (toRawUTF8 ("scan:" ++ joinIntoString m.formatNames ","))
        ("scan:" ++ joinIntoString m.formatNames ",").length))]
    else [Step.call (Effect.dbg ("[EL] invalid slave state: " ++ state))]
  else if state = "scanning" then
    lockedRead ++
    if m.isRunning = false then
      Step.call (Effect.dbg "[EL] a plugin crashed or timed out during scan") ::
        updateListAndLaunchSlaveSteps
    else [Step.call (Effect.dbg "[EL] scanning... and running....")]
  else if state = "finished" then
    [Step.call (Effect.dbg "[EL] slave finished scanning"), Step.enter, Step.exit,
     Step.call Effect.audioPluginScanFinished]
  else if state = "waiting" then
    lockedRead ++
    if m.isRunning = false then
      Step.call (Effect.dbg "[EL] waiting for plugin scanner") ::
        updateListAndLaunchSlaveSteps
    else []
  else if m.slaveState = "quitting" then []
  else [Step.call (Effect.dbg ("[EL] invalid slave state: " ++ state))]

end PluginScannerMaster

/-- The calls among the steps, in order. -/
def callsOf : List Step → List Effect
  | [] => []
  | Step.call e :: steps => e :: callsOf steps
  | _ :: steps => callsOf steps

/-- Every notification among the steps is made while the critical section is
not held; `depth` counts the `enter`s not yet matched by an `exit`. -/
def notifiesUnlocked : Nat → List Step → Bool
  | _, [] => true
  | depth, Step.enter :: steps => notifiesUnlocked (depth + 1) steps
  | depth, Step.exit :: steps => notifiesUnlocked (depth - 1) steps
  | depth, Step.call e :: steps =>
      (!e.isNotification || depth == 0) && notifiesUnlocked depth steps

/-! ## The worker's scan of one format -/

/-- The methods of `juce::PluginDirectoryScanner` the worker calls, over the
scanner's state `S`.  `getProgress` gives the text `String (getProgress ())`. -/
structure PluginDirectoryScanner (S : Type) where
  getNextPluginFileThatWillBeScanned : S → String
  getFailedFiles : S → List String
  scanNextFile : S → Bool × S
  getProgress : S → String

namespace PluginScannerSlave

/-- The method `PluginScannerSlave::doNextScan`: its result, the scanner
afterwards and the calls made. -/
def doNextScan {S : Type} (scanner : PluginDirectoryScanner S) (s : S) :
    Bool × S × List SlaveCall :=
  let nextFile := scanner.getNextPluginFileThatWillBeScanned s
  let calls :=
    SlaveCall.sendString "name" nextFile ::
      (scanner.getFailedFiles s).map SlaveCall.addToBlacklist
  let r := scanner.scanNextFile s
  if r.1 then (true, r.2, calls ++ [SlaveCall.writePluginListNow])
  else (false, r.2, calls)

/-- The loop `while (doNextScan ()) sendString ("progress", ...)` of `scanFor`:
the calls made until `doNextScan` returns false, `none` when `fuel` rounds do
not get there. -/
def scanLoop {S : Type} (scanner : PluginDirectoryScanner S) :
    Nat → S → Option (List SlaveCall)
  | 0, _ => none
  | fuel + 1, s =>
      let d := doNextScan scanner s
      if d.1 then
        (scanLoop scanner fuel d.2.1).map fun rest =>
          d.2.2 ++ SlaveCall.sendString "progress" (scanner.getProgress d.2.1) :: rest
      else some d.2.2

/-- The method `PluginScannerSlave::scanFor (AudioPluginFormat&)` on the scanner
it has just constructed, in state `s`; `ready` says that `plugins` and
`settings` are both set. -/
def scanFor {S : Type} (scanner : PluginDirectoryScanner S) (fuel : Nat)
    (ready : Bool) (s : S) : Option (List SlaveCall) :=
  if ready = false then some []
  else (scanLoop scanner fuel s).map fun calls => calls ++ [SlaveCall.writePluginListNow]

end PluginScannerSlave

/-- What a call of the worker means for the pairing of its messages. -/
inductive Mark
  | name
  | persisted
  | progress
  deriving DecidableEq, Repr

/-- The marks of a sequence of calls: the "name" and "progress" messages and
the writes of the plugin list, in order. -/
def marks : List SlaveCall → List Mark
  | [] => []
  | SlaveCall.sendString type _ :: calls =>
      if type = "name" then Mark.name :: marks calls
      else if type = "progress" then Mark.progress :: marks calls
      else marks calls
  | SlaveCall.writePluginListNow :: calls => Mark.persisted :: marks calls
  | _ :: calls => marks calls

/-- The scanner state after `i` calls of `scanNextFile`. -/
def stateAfter {S : Type} (scanner : PluginDirectoryScanner S) : Nat → S → S
  | 0, s => s
  | i + 1, s => stateAfter scanner i (scanner.scanNextFile s).2

/-- A scanner over `files` that answers as `juce::PluginDirectoryScanner` does:
its state is `nextIndex`, and `scanNextFile` steps to the index below and
returns whether that index is above 0. -/
def directoryScanner (files : List String) : PluginDirectoryScanner Int :=
  { getNextPluginFileThatWillBeScanned := fun nextIndex =>
      if 1 ≤ nextIndex then files.getD (nextIndex - 1).toNat "" else ""
    getFailedFiles := fun _ => []
    scanNextFile := fun nextIndex => (decide (0 < nextIndex - 1), nextIndex - 1)
    getProgress := fun nextIndex =>
      toString (files.length - nextIndex.toNat) ++ "/" ++ toString files.length }

/-! ## The dead man's pedal -/

/-- A `juce::KnownPluginList`: the plugin types, not looked into, and the
blacklist. -/
structure KnownPluginList (T : Type) where
  types : T
  blacklist : List String

/-- The method `KnownPluginList::addToBlacklist`. -/
def KnownPluginList.addToBlacklist {T : Type} (list : KnownPluginList T)
    (pluginID : String) : KnownPluginList T :=
  if pluginID ∈ list.blacklist then list
  else { list with blacklist := list.blacklist ++ [pluginID] }

/-- The function `PluginDirectoryScanner::applyBlacklistingsFromDeadMansPedal`;
`crashedPlugins` is what `readDeadMansPedalFile` reads from the file. -/
def applyBlacklistingsFromDeadMansPedal {T : Type} (list : KnownPluginList T)
    (crashedPlugins : List String) : KnownPluginList T :=
  crashedPlugins.foldl KnownPluginList.addToBlacklist list

/-- The method `PluginManager::Private::updateBlacklistedAudioPlugins`.  The
file `deadAudioPlugins` is `none` when it does not exist and otherwise holds
the crashed plugins listed in it.  The result is the returned flag, the list
`allPlugins` afterwards and the file afterwards. -/
def updateBlacklistedAudioPlugins {T : Type} (allPlugins : KnownPluginList T)
    (deadAudioPlugins : Option (List String)) :
    Bool × KnownPluginList T × Option (List String) :=
  match deadAudioPlugins with
  | some crashedPlugins =>
      (true, applyBlacklistingsFromDeadMansPedal allPlugins crashedPlugins, none)
  | none => (false, allPlugins, none)

/-! ## Strings, UTF-8 and blocks -/

/-- Reading back what `utf8Write` wrote for a code point yields that code point
and leaves the bytes that followed. -/
theorem getAndAdvance_utf8Write (c : Nat) (hc : c < 0x110000) (h0 : c ≠ 0) (rest : List Nat) :
    ∃ b bs, utf8Write c = b :: bs ∧ b ≠ 0 ∧ getAndAdvance b (bs ++ rest) = (c, rest) := by
  unfold utf8Write
  split
  · exact ⟨c, [], rfl, h0, by simp [getAndAdvance, *]⟩
  split
  · refine ⟨_, _, rfl, by omega, ?_⟩
    have h1 : ¬ (0xC0 + c / 0x40 < 0x80) := by omega
    have h2 : ¬ (0xC0 + c / 0x40 < 0xC0) := by omega
    have h3 : (0xC0 + c / 0x40 < 0xE0) := by omega
    have h4 : (0x80 + c % 0x40) / 0x40 = 2 := by omega
    simp only [getAndAdvance, h1, h2, h3, if_true, if_false, readExtraValues, List.cons_append, List.nil_append, h4]
    congr 1
    omega
  split
  · refine ⟨_, _, rfl, by omega, ?_⟩
    have h1 : ¬ (0xE0 + c / 0x1000 < 0x80) := by omega
    have h2 : ¬ (0xE0 + c / 0x1000 < 0xC0) := by omega
    have h3 : ¬ (0xE0 + c / 0x1000 < 0xE0) := by omega
    have h3' : (0xE0 + c / 0x1000 < 0xF0) := by omega
    have h4 : (0x80 + c % 0x40) / 0x40 = 2 := by omega
    have h5 : (0x80 + c / 0x40 % 0x40) / 0x40 = 2 := by omega
    simp only [getAndAdvance, h1, h2, h3, h3', if_true, if_false, readExtraValues, List.cons_append, List.nil_append, h4, h5]
    congr 1
    omega
  · refine ⟨_, _, rfl, by omega, ?_⟩
    have h1 : ¬ (0xF0 + c / 0x40000 < 0x80) := by omega
    have h2 : ¬ (0xF0 + c / 0x40000 < 0xC0) := by omega
    have h3 : ¬ (0xF0 + c / 0x40000 < 0xE0) := by omega
    have h3' : ¬ (0xF0 + c / 0x40000 < 0xF0) := by omega
    have h4 : (0x80 + c % 0x40) / 0x40 = 2 := by omega
    have h5 : (0x80 + c / 0x40 % 0x40) / 0x40 = 2 := by omega
    have h6 : (0x80 + c / 0x1000 % 0x40) / 0x40 = 2 := by omega
    simp only [getAndAdvance, h1, h2, h3, h3', if_true, if_false, readExtraValues, List.cons_append, List.nil_append, h4, h5, h6]
    congr 1
    omega

/-- Decoding the UTF-8 bytes of NUL-free characters yields the characters. -/
theorem fromUTF8Aux_flatMap (cs : List Char) (h0 : ∀ c ∈ cs, c.toNat ≠ 0) :
    ∀ fuel, cs.length ≤ fuel →
      fromUTF8Aux fuel (cs.flatMap fun c => utf8Write c.toNat) = cs := by
  induction cs with
  | nil => intro fuel _; cases fuel <;> simp [fromUTF8Aux]
  | cons c cs ih =>
    intro fuel hf
    obtain ⟨fuel, rfl⟩ : ∃ k, fuel = k + 1 := ⟨fuel - 1, by simp at hf; omega⟩
    have hv : c.toNat < 0x110000 := by
      have := c.valid
      simp [UInt32.isValidChar, Nat.isValidChar, Char.toNat] at this ⊢
      omega
    obtain ⟨b, bs, hw, hb, hg⟩ := getAndAdvance_utf8Write c.toNat hv (h0 c (by simp))
      (cs.flatMap fun c => utf8Write c.toNat)
    simp only [List.flatMap_cons, hw, List.cons_append, fromUTF8Aux, hb, if_false, hg]
    rw [if_neg (h0 c (by simp)), ih (fun d hd => h0 d (by simp [hd])) fuel (by simp at hf; omega)]
    simp [Char.ofNat_toNat]


/-- A string without the NUL character holds no character of code 0. -/
theorem toNat_ne_zero_of_not_mem (s : String) (h : '\x00' ∉ s.data) :
    ∀ c ∈ s.data, c.toNat ≠ 0 := by
  intro c hc h0
  apply h
  have : c = '\x00' := by
    rw [← Char.ofNat_toNat c, h0]
  exact this ▸ hc

/-- A block made of all the UTF-8 bytes of a string reads back as that string. -/
theorem toString_toRawUTF8 (s : String) (h : '\x00' ∉ s.data) :
    MemoryBlock.toString (MemoryBlock.copyOf (toRawUTF8 s) (getNumBytesAsUTF8 s)) = s := by
  have hlen : s.data.length ≤ (toRawUTF8 s).length := by
    unfold toRawUTF8
    generalize s.data = cs
    induction cs with
    | nil => simp
    | cons c cs ih =>
      have : 1 ≤ (utf8Write c.toNat).length := by
        unfold utf8Write; split_ifs <;> simp
      simp only [List.flatMap_cons, List.length_append, List.length_cons]
      omega
  simp only [MemoryBlock.copyOf, getNumBytesAsUTF8, List.take_length, MemoryBlock.toString]
  show String.mk (fromUTF8Aux _ (s.data.flatMap fun c => utf8Write c.toNat)) = s
  rw [fromUTF8Aux_flatMap s.data (toNat_ne_zero_of_not_mem s h) _ hlen]

/-- The first colon after a colon-free prefix is found right after the prefix. -/
theorem indexOf_colon (t p : List Char) (h : ':' ∉ t) :
    indexOf (t ++ ':' :: p) [':'] = some t.length := by
  induction t with
  | nil => simp [indexOf, List.isPrefixOf]
  | cons c t ih =>
    have hc : c ≠ ':' := fun e => h (by simp [e])
    have ht : ':' ∉ t := fun e => h (by simp [e])
    simp [indexOf, List.isPrefixOf, ih ht, hc.symm]

/-- A colon-free text has no colon to find. -/
theorem indexOf_colon_none (t : List Char) (h : ':' ∉ t) :
    indexOf t [':'] = none := by
  induction t with
  | nil => simp [indexOf]
  | cons c t ih =>
    have hc : c ≠ ':' := fun e => h (by simp [e])
    have ht : ':' ∉ t := fun e => h (by simp [e])
    simp [indexOf, List.isPrefixOf, ih ht, hc.symm]

/-- The text before the first colon of `t:p` is `t` when `t` has no colon. -/
theorem upToFirstOccurrenceOf_colon (t p : String) (h : ':' ∉ t.data) :
    upToFirstOccurrenceOf (t ++ ":" ++ p) ":" = t := by
  have : (t ++ ":" ++ p).data = t.data ++ ':' :: p.data := by
    simp [String.data_append]
  simp [upToFirstOccurrenceOf, this, indexOf_colon _ _ h]

/-- The text after the first colon of `t:p` is `p` when `t` has no colon. -/
theorem fromFirstOccurrenceOf_colon (t p : String) (h : ':' ∉ t.data) :
    fromFirstOccurrenceOf (t ++ ":" ++ p) ":" = p := by
  have : (t ++ ":" ++ p).data = t.data ++ ':' :: p.data := by
    simp [String.data_append]
  have hd : List.drop (t.data.length + 1) (t.data ++ ':' :: p.data) = p.data := by
    rw [List.drop_append_eq_append_drop]
    simp
  simp only [fromFirstOccurrenceOf, this, indexOf_colon _ _ h]
  show String.mk (List.drop (t.data.length + 1) (t.data ++ ':' :: p.data)) = p
  rw [hd]

/-- Trimming a string with no whitespace at either end changes nothing. -/
theorem trim_eq_self (p : String)
    (hhead : ∀ c, p.data.head? = some c → isWhitespace c = false)
    (hlast : ∀ c, p.data.getLast? = some c → isWhitespace c = false) :
    trim p = p := by
  have h1 : p.data.dropWhile isWhitespace = p.data := by
    cases hp : p.data with
    | nil => rfl
    | cons c cs =>
      have := hhead c (by simp [hp])
      simp [List.dropWhile, this]
  have h2 : p.data.rdropWhile isWhitespace = p.data := by
    rw [List.rdropWhile_eq_self_iff]
    intro hl
    have := hlast (p.data.getLast hl) (List.getLast?_eq_getLast _ hl)
    simp [this]
  simp [trim, h1, h2]


/-- The block `sendString` builds reads back as `type:payload`. -/
theorem toString_sendString (type payload : String)
    (hTypeNul : '\x00' ∉ type.data) (hNul : '\x00' ∉ payload.data)
    (hhead : ∀ c, payload.data.head? = some c → isWhitespace c = false)
    (hlast : ∀ c, payload.data.getLast? = some c → isWhitespace c = false) :
    MemoryBlock.toString (PluginScannerSlave.sendString type payload) =
      type ++ ":" ++ payload := by
  unfold PluginScannerSlave.sendString
  rw [trim_eq_self payload hhead hlast]
  apply toString_toRawUTF8
  simp [String.data_append, hTypeNul, hNul]


open PluginScannerMaster

/-- The worker's "ready" report reads back as `state:ready`. -/
theorem toString_sendState_ready :
    MemoryBlock.toString (PluginScannerSlave.sendState "ready") = "state:ready" := by
  decide

/-- The worker's "scanning" report reads back as `state:scanning`. -/
theorem toString_sendState_scanning :
    MemoryBlock.toString (PluginScannerSlave.sendState "scanning") = "state:scanning" := by
  decide

/-- In a stored state that is none of the five names `handleAsyncUpdate` tests
for, the update only writes a log line. -/
theorem handleAsyncUpdate_invalid {X L : Type} (recreateFromXml : X → L → L)
    (env : Env X) (list : L) (m : PluginScannerMaster)
    (h1 : m.slaveState ≠ "ready") (h2 : m.slaveState ≠ "scanning")
    (h3 : m.slaveState ≠ "finished") (h4 : m.slaveState ≠ "waiting")
    (h5 : m.slaveState ≠ "quitting") :
    m.handleAsyncUpdate recreateFromXml env list =
      { list := list, master := some m,
        effects := [Effect.dbg ("[EL] invalid slave state: " ++ m.slaveState)] } := by
  simp [handleAsyncUpdate, getSlaveState, h1, h2, h3, h4, h5]

/-! ## Starting a scan -/

/-- C1: with `running = true`, `startScanning` returns true, makes no call at all
(so launches no worker) and leaves every member as it was. -/
theorem startScanning_running_noop {X : Type} (env : Env X) (names : List String)
    (m : PluginScannerMaster) (h : m.running = true) :
    (m.startScanning env names).value = true ∧
    (m.startScanning env names).effects = [] ∧
    (m.startScanning env names).self = m := by
  simp [PluginScannerMaster.startScanning, PluginScannerMaster.isRunning, h]

/-- C1, at a supervisor in the middle of a scan of "VST" that is asked to scan
"AudioUnit". -/
theorem startScanning_running_noop_witness :
    scanningMaster.running = true ∧
    (scanningMaster.startScanning envOk ["AudioUnit"]).value = true ∧
    (scanningMaster.startScanning envOk ["AudioUnit"]).effects = [] ∧
    (scanningMaster.startScanning envOk ["AudioUnit"]).self = scanningMaster :=
  ⟨by decide, startScanning_running_noop envOk ["AudioUnit"] scanningMaster (by decide)⟩

/-- C2: with `running = false`, `startScanning names` returns false exactly when
`launchSlaveProcess` failed; afterwards `isRunning` is the returned value, the
state is "waiting", the format list is `names`, and the only call made is the
one launch (no second launch, no asynchronous update). -/
theorem startScanning_idle {X : Type} (env : Env X) (names : List String)
    (m : PluginScannerMaster) (h : m.running = false) :
    ((m.startScanning env names).value = false ↔ env.launchSlaveProcess = false) ∧
    (m.startScanning env names).self.isRunning = (m.startScanning env names).value ∧
    (m.startScanning env names).self.slaveState = "waiting" ∧
    (m.startScanning env names).self.formatNames = names ∧
    (m.startScanning env names).effects =
      [Effect.launchSlaveProcess EL_PLUGIN_SCANNER_DEFAULT_TIMEOUT 0] := by
  simp [PluginScannerMaster.startScanning, PluginScannerMaster.isRunning, h,
    PluginScannerMaster.launchScanner, PluginScannerMaster.resetScannerVariables]

/-- C2, at a new supervisor whose worker process cannot be started. -/
theorem startScanning_idle_witness :
    PluginScannerMaster.new.running = false ∧
    (((PluginScannerMaster.new.startScanning envNoLaunch ["VST"]).value = false ↔
        envNoLaunch.launchSlaveProcess = false) ∧
      (PluginScannerMaster.new.startScanning envNoLaunch ["VST"]).self.isRunning =
        (PluginScannerMaster.new.startScanning envNoLaunch ["VST"]).value ∧
      (PluginScannerMaster.new.startScanning envNoLaunch ["VST"]).self.slaveState =
        "waiting" ∧
      (PluginScannerMaster.new.startScanning envNoLaunch ["VST"]).self.formatNames =
        ["VST"] ∧
      (PluginScannerMaster.new.startScanning envNoLaunch ["VST"]).effects =
        [Effect.launchSlaveProcess EL_PLUGIN_SCANNER_DEFAULT_TIMEOUT 0]) :=
  ⟨by decide, startScanning_idle envNoLaunch ["VST"] PluginScannerMaster.new (by decide)⟩

/-! ## Cancelling -/

/-- C3, at the run where the claim fails: a scan of "VST" is started, the worker
reports "ready", the request goes out and `cancel` is called, which stores
"quitting" and clears `running`.  The worker's "scanning" report, sent before it
read the quit message, arrives next: it overwrites "quitting", and the
asynchronous update takes the supervisor for crashed and launches a worker
again, which leaves `running = true`. -/
theorem cancel_then_scanning_relaunches :
    (cancelled ["VST"]).master.map (fun m => (m.slaveState, m.running)) =
      some ("quitting", false) ∧
    (deliverAll noRecreate (cancelled ["VST"])
      [Event.messageFromSlave (PluginScannerSlave.sendState "scanning"),
       Event.asyncUpdate envOk]).2 =
      [Effect.triggerAsyncUpdate,
       Effect.dbg "[EL] a plugin crashed or timed out during scan",
       Effect.launchSlaveProcess EL_PLUGIN_SCANNER_DEFAULT_TIMEOUT 0] ∧
    (deliverAll noRecreate (cancelled ["VST"])
      [Event.messageFromSlave (PluginScannerSlave.sendState "scanning"),
       Event.asyncUpdate envOk]).1.master.map (fun m => (m.slaveState, m.running)) =
      some ("scanning", true) := by
  decide

/-- One callback that reports neither "scanning" nor "waiting" keeps a settled
scanner settled and launches nothing. -/
theorem deliver_settled {X L : Type} (recreateFromXml : X → L → L)
    (o : PluginScanner L) (e : Event X) (ho : o.Settled)
    (h1 : e.reportsState "scanning" = false) (h2 : e.reportsState "waiting" = false) :
    (deliver recreateFromXml o e).1.Settled ∧
    ∀ x ∈ (deliver recreateFromXml o e).2, x.isLaunch = false := by
  unfold deliver
  cases hm : o.master with
  | none =>
    refine ⟨?_, by simp⟩
    intro m hm'
    simp [hm] at hm'
  | some m =>
    obtain ⟨hr, hs, hw⟩ := ho m hm
    cases e with
    | messageFromSlave mb =>
      simp only [Event.reportsState, Bool.and_eq_false_iff, decide_eq_false_iff_not] at h1 h2
      simp only [handleMessageFromSlave]
      by_cases ht : upToFirstOccurrenceOf mb.toString ":" = "state"
      · have h1' := h1.resolve_left (not_not.2 ht)
        have h2' := h2.resolve_left (not_not.2 ht)
        simp only [ht, if_true]
        constructor
        · intro m' hm'
          split at hm' <;> simp at hm' <;> subst hm' <;> exact ⟨hr, h1', h2'⟩
        · intro x hx
          split at hx <;> simp at hx
          subst hx; rfl
      · simp only [ht, if_false]
        split_ifs
        · refine ⟨?_, by simp [Effect.isLaunch]⟩
          intro m' hm'
          simp at hm'; subst hm'; exact ⟨hr, hs, hw⟩
        · refine ⟨?_, by simp [Effect.isLaunch]⟩
          intro m' hm'
          simp at hm'; subst hm'; exact ⟨hr, hs, hw⟩
        · refine ⟨?_, by simp⟩
          intro m' hm'
          simp at hm'; subst hm'; exact ⟨hr, hs, hw⟩
    | connectionLost =>
      refine ⟨?_, by simp [handleConnectionLost, Effect.isLaunch]⟩
      intro m' hm'
      simp [handleConnectionLost] at hm'; subst hm'; exact ⟨rfl, hs, hw⟩
    | asyncUpdate env =>
      simp only [handleAsyncUpdate, getSlaveState, isRunning, hr, hs, hw, if_false,
        and_false, Bool.false_eq_true]
      split_ifs
      · refine ⟨?_, by simp [Effect.isLaunch]⟩
        intro m' hm'
        simp at hm'; subst hm'; exact ⟨rfl, by simp, by simp⟩
      · refine ⟨?_, by simp⟩
        intro m' hm'
        simp at hm'
      · refine ⟨?_, by simp [Effect.isLaunch]⟩
        intro m' hm'
        simp at hm'; subst hm'; exact ⟨hr, hs, hw⟩

/-- A settled scanner launches nothing as long as no callback reports "scanning"
or "waiting". -/
theorem deliverAll_settled {X L : Type} (recreateFromXml : X → L → L)
    (es : List (Event X)) :
    ∀ o : PluginScanner L, o.Settled →
      (∀ e ∈ es, e.reportsState "scanning" = false ∧ e.reportsState "waiting" = false) →
      ∀ x ∈ (deliverAll recreateFromXml o es).2, x.isLaunch = false := by
  induction es with
  | nil => intro o _ _ x hx; simp [deliverAll] at hx
  | cons e es ih =>
    intro o ho hes x hx
    have hd := deliver_settled recreateFromXml o e ho (hes e (by simp)).1 (hes e (by simp)).2
    simp only [deliverAll, List.mem_append] at hx
    rcases hx with hx | hx
    · exact hd.2 x hx
    · exact ih _ hd.1 (fun e' he' => hes e' (by simp [he'])) x hx

/-- What does hold after `cancel`: no sequence of callbacks launches a worker,
provided none of them is a "scanning" or "waiting" report from the worker. -/
theorem cancel_no_relaunch_without_report {X L : Type} (recreateFromXml : X → L → L)
    (env : Env X) (o : PluginScanner L) (es : List (Event X))
    (hes : ∀ e ∈ es, e.reportsState "scanning" = false ∧ e.reportsState "waiting" = false) :
    ∀ x ∈ (deliverAll recreateFromXml (o.cancel env).1 es).2, x.isLaunch = false := by
  apply deliverAll_settled recreateFromXml es _ _ hes
  intro m hm
  unfold PluginScanner.cancel at hm
  cases ho : o.master with
  | none => simp [ho] at hm
  | some m0 =>
    simp [ho, sendQuitMessage] at hm
    subst hm
    exact ⟨rfl, by simp, by simp⟩

/-! ## A lost connection -/

/-- C4, at the run where the claim fails: a scan of "VST" is started, the worker
reports "ready" and the request goes out, so the stored state is "ready" and
`running` is true.  The connection is lost before the worker reports
"scanning": the asynchronous update finds "ready" with `running = false`, falls
through to the last branch and only logs an invalid state.  No
`launchSlaveProcess` is made and the supervisor stays in "ready", not running. -/
theorem crash_in_ready_not_recovered :
    (requested ["VST"]).master.map (fun m => (m.slaveState, m.running)) =
      some ("ready", true) ∧
    (deliverAll noRecreate (requested ["VST"])
      [Event.connectionLost, Event.asyncUpdate envOk]).2 =
      [Effect.triggerAsyncUpdate, Effect.dbg "[EL] invalid slave state: ready"] ∧
    (deliverAll noRecreate (requested ["VST"])
      [Event.connectionLost, Event.asyncUpdate envOk]).1.master.map
        (fun m => (m.slaveState, m.running)) = some ("ready", false) := by
  decide

/-- A lost connection in state "scanning" or "waiting" is followed by a launch. -/
theorem crash_recovered_in_scanning_or_waiting {X L : Type} (recreateFromXml : X → L → L)
    (env : Env X) (list : L) (m : PluginScannerMaster)
    (h : m.slaveState = "scanning" ∨ m.slaveState = "waiting") :
    Effect.launchSlaveProcess EL_PLUGIN_SCANNER_DEFAULT_TIMEOUT 0 ∈
      (m.handleConnectionLost.self.handleAsyncUpdate recreateFromXml env list).effects := by
  rcases h with h | h <;>
    simp [handleConnectionLost, handleAsyncUpdate, getSlaveState, isRunning, h,
      updateListAndLaunchSlave, launchScanner]

/-- A lost connection in state "ready" is followed by no call but a log line. -/
theorem crash_in_ready {X L : Type} (recreateFromXml : X → L → L)
    (env : Env X) (list : L) (m : PluginScannerMaster) (h : m.slaveState = "ready") :
    m.handleConnectionLost.self.handleAsyncUpdate recreateFromXml env list =
      { list := list, master := some { m with running := false },
        effects := [Effect.dbg "[EL] invalid slave state: ready"] } := by
  simp [handleConnectionLost, handleAsyncUpdate, getSlaveState, isRunning, h]

/-! ## The scan request after a relaunch -/

/-- After a crash in state "scanning", a successful relaunch and a new "ready",
the block sent is the block of the first request again, whatever the format
list: the pending list is resent. -/
theorem scan_request_resent {X L : Type} (recreateFromXml : X → L → L)
    (formats : List String) (m0 : PluginScannerMaster) (list : L)
    (e0 e1 e2 e3 e4 : Env X) (h0 : m0.running = false)
    (hl0 : e0.launchSlaveProcess = true) (hl3 : e3.launchSlaveProcess = true) :
    (deliverAll recreateFromXml
      { list := list, master := some (m0.startScanning e0 formats).self }
      [Event.messageFromSlave (PluginScannerSlave.sendState "ready"),
       Event.asyncUpdate e1,
       Event.messageFromSlave (PluginScannerSlave.sendState "scanning"),
       Event.asyncUpdate e2,
       Event.connectionLost,
       Event.asyncUpdate e3,
       Event.messageFromSlave (PluginScannerSlave.sendState "ready"),
       Event.asyncUpdate e4]).2 =
      [Effect.triggerAsyncUpdate,
       Effect.sendMessageToSlave (scanRequest formats),
       Effect.triggerAsyncUpdate,
       Effect.dbg "[EL] scanning... and running....",
       Effect.triggerAsyncUpdate,
       Effect.dbg "[EL] a plugin crashed or timed out during scan",
       Effect.launchSlaveProcess EL_PLUGIN_SCANNER_DEFAULT_TIMEOUT 0,
       Effect.triggerAsyncUpdate,
       Effect.sendMessageToSlave (scanRequest formats)] := by
  have a1 : upToFirstOccurrenceOf "state:ready" ":" = "state" := by decide
  have a2 : fromFirstOccurrenceOf "state:ready" ":" = "ready" := by decide
  have b1 : upToFirstOccurrenceOf "state:scanning" ":" = "state" := by decide
  have b2 : fromFirstOccurrenceOf "state:scanning" ":" = "scanning" := by decide
  simp [deliverAll, deliver, startScanning, isRunning, h0, hl0, hl3, launchScanner,
    resetScannerVariables, handleMessageFromSlave, toString_sendState_ready,
    toString_sendState_scanning, a1, a2, b1, b2, handleAsyncUpdate, getSlaveState,
    handleConnectionLost, updateListAndLaunchSlave, scanRequest]

/-- C5, at the format list where the claim fails, the single name "é".  The
request is resent after the relaunch, but the block is built with
`msg.length()`, the number of characters (6), as its byte count, while
`msg = "scan:é"` takes 7 bytes of UTF-8: the block sent ends in the lone lead
byte 195, and its payload does not read back as the joined format list. -/
theorem scan_request_truncated :
    (deliverAll noRecreate (deliverAll noRecreate (requested ["é"]) crashAndReady).1
      [Event.asyncUpdate envOk]).2 =
      [Effect.sendMessageToSlave [115, 99, 97, 110, 58, 195]] ∧
    toRawUTF8 ("scan:" ++ joinIntoString ["é"] ",") = [115, 99, 97, 110, 58, 195, 169] ∧
    fromFirstOccurrenceOf (MemoryBlock.toString [115, 99, 97, 110, 58, 195]) ":" ≠
      joinIntoString ["é"] "," := by
  decide

/-! ## Cancelling when nothing is being scanned -/

/-- C6, at a state where the claim fails: after a scan ran to the end the
supervisor is still there with `running = false` and state "idle", so
`isScanning` is false; `cancel` all the same hands the four bytes of "quit" to
`sendMessageToSlave` and replaces the stored state by "quitting". -/
theorem cancel_after_finish_not_noop :
    finishedScanner.isScanning = false ∧
    finishedScanner.master.map (fun m => m.slaveState) = some "idle" ∧
    (finishedScanner.cancel envOk).1.master.map (fun m => m.slaveState) =
      some "quitting" ∧
    (finishedScanner.cancel envOk).2 = [Effect.sendMessageToSlave [113, 117, 105, 116]] := by
  decide

/-- C6 as amended: when `isScanning` is false, `cancel` does nothing at all if
there is no supervisor; if there is one, it hands "quit" to `sendMessageToSlave`
and stores the state "quitting", and that is all: `running` (false already),
the format list, the progress, the plugin being scanned and the plugin list stay
as they were, and no process is launched. -/
theorem cancel_not_scanning {X L : Type} (env : Env X) (o : PluginScanner L)
    (h : o.isScanning = false) :
    (o.master = none → o.cancel env = (o, [])) ∧
    (∀ m, o.master = some m →
      o.cancel env =
        ({ o with master := some { m with slaveState := "quitting" } },
         [Effect.sendMessageToSlave (toRawUTF8 "quit")])) := by
  constructor
  · intro hm; simp [PluginScanner.cancel, hm]
  · intro m hm
    have hr : m.running = false := by
      simpa [PluginScanner.isScanning, hm, isRunning] using h
    simp only [PluginScanner.cancel, hm, sendQuitMessage, MemoryBlock.copyOf]
    have : List.take 4 (toRawUTF8 "quit") = toRawUTF8 "quit" := by decide
    rw [this, ← hr]

/-- C6 as amended, at the scanner whose scan ran to the end. -/
theorem cancel_not_scanning_witness :
    finishedScanner.isScanning = false ∧
    ((finishedScanner.master = none → finishedScanner.cancel envOk = (finishedScanner, [])) ∧
     (∀ m, finishedScanner.master = some m →
        finishedScanner.cancel envOk =
          ({ finishedScanner with master := some { m with slaveState := "quitting" } },
           [Effect.sendMessageToSlave (toRawUTF8 "quit")]))) :=
  ⟨by decide, cancel_not_scanning envOk finishedScanner (by decide)⟩

/-! ## Status strings the supervisor does not know -/

/-- C7, at inputs where the claim fails.  In the middle of a scan the payload
"bogus" is stored as the state, and so is the empty payload of a message
"state" without a colon.  The payload "waiting", which is not one of ready,
scanning, finished either, makes a supervisor that is not running launch a
worker, and the payload "quitting" makes the owner drop the supervisor. -/
theorem unrecognised_state_not_ignored :
    (((scanningMaster.handleMessageFromSlave
        (PluginScannerSlave.sendState "bogus")).self.handleAsyncUpdate
          noRecreate envOk ()).master.map fun m => m.slaveState) = some "bogus" ∧
    (((scanningMaster.handleMessageFromSlave
        (toRawUTF8 "state")).self.handleAsyncUpdate
          noRecreate envOk ()).master.map fun m => m.slaveState) = some "" ∧
    ((PluginScannerMaster.new.handleMessageFromSlave
        (PluginScannerSlave.sendState "waiting")).self.handleAsyncUpdate
          noRecreate envOk ()).effects =
      [Effect.dbg "[EL] waiting for plugin scanner",
       Effect.launchSlaveProcess EL_PLUGIN_SCANNER_DEFAULT_TIMEOUT 0] ∧
    ((scanningMaster.handleMessageFromSlave
        (PluginScannerSlave.sendState "quitting")).self.handleAsyncUpdate
          noRecreate envOk ()).master = none := by
  decide

/-- C7 as amended: a "state" message whose payload is none of ready, scanning,
finished, waiting, quitting (an empty payload and a message without a colon
included) is stored: `slaveState` becomes the payload.  Nothing else changes in
`handleMessageFromSlave` followed by `handleAsyncUpdate`: the running flag and
the other members and the plugin list stay as they were, the supervisor stays
in place, and no call made is a launch, a send or a notification. -/
theorem unrecognised_state_is_stored {X L : Type} (recreateFromXml : X → L → L)
    (env : Env X) (list : L) (m : PluginScannerMaster) (mb : MemoryBlock)
    (htype : upToFirstOccurrenceOf mb.toString ":" = "state")
    (h1 : fromFirstOccurrenceOf mb.toString ":" ≠ "ready")
    (h2 : fromFirstOccurrenceOf mb.toString ":" ≠ "scanning")
    (h3 : fromFirstOccurrenceOf mb.toString ":" ≠ "finished")
    (h4 : fromFirstOccurrenceOf mb.toString ":" ≠ "waiting")
    (h5 : fromFirstOccurrenceOf mb.toString ":" ≠ "quitting") :
    (m.handleMessageFromSlave mb).self =
      { m with slaveState := fromFirstOccurrenceOf mb.toString ":" } ∧
    ((m.handleMessageFromSlave mb).self.handleAsyncUpdate recreateFromXml env list).master =
      some { m with slaveState := fromFirstOccurrenceOf mb.toString ":" } ∧
    ((m.handleMessageFromSlave mb).self.handleAsyncUpdate recreateFromXml env list).list =
      list ∧
    ∀ x ∈ (m.handleMessageFromSlave mb).effects ++
        ((m.handleMessageFromSlave mb).self.handleAsyncUpdate recreateFromXml env list).effects,
      x.isLaunch = false ∧ x.isSend = false ∧ x.isNotification = false := by
  have hs : (m.handleMessageFromSlave mb).self =
      { m with slaveState := fromFirstOccurrenceOf mb.toString ":" } := by
    simp only [handleMessageFromSlave, htype, if_true]
    split <;> rfl
  have he : ∀ x ∈ (m.handleMessageFromSlave mb).effects, x = Effect.triggerAsyncUpdate := by
    simp only [handleMessageFromSlave, htype, if_true]
    split <;> simp
  rw [hs, handleAsyncUpdate_invalid recreateFromXml env list _ h1 h2 h3 h4 h5]
  refine ⟨rfl, rfl, rfl, ?_⟩
  intro x hx
  rcases List.mem_append.1 hx with hx | hx
  · rw [he x hx]; exact ⟨rfl, rfl, rfl⟩
  · rw [List.mem_singleton.1 hx]; exact ⟨rfl, rfl, rfl⟩

/-- C7 as amended, at the payload "bogus" in the middle of a scan. -/
theorem unrecognised_state_is_stored_witness :
    ((scanningMaster.handleMessageFromSlave
        (PluginScannerSlave.sendState "bogus")).self.handleAsyncUpdate
          noRecreate envOk ()).master =
      some { scanningMaster with
        slaveState := fromFirstOccurrenceOf
          (MemoryBlock.toString (PluginScannerSlave.sendState "bogus")) ":" } :=
  (unrecognised_state_is_stored noRecreate envOk () scanningMaster
    (PluginScannerSlave.sendState "bogus") (by decide) (by decide) (by decide)
    (by decide) (by decide) (by decide)).2.1

/-! ## The end of a scan -/

/-- C8: in state "scanning" with `running = true`, the worker's "finished"
report schedules the asynchronous update, still running; the update then clears
`running`, stores "idle" and calls `audioPluginScanFinished`.  That notification
is made exactly once, and no call is a launch or a send. -/
theorem finished_transition {X L : Type} (recreateFromXml : X → L → L)
    (env : Env X) (list : L) (m : PluginScannerMaster)
    (hs : m.slaveState = "scanning") (hr : m.running = true) :
    (m.handleMessageFromSlave (PluginScannerSlave.sendState "finished")).effects =
      [Effect.triggerAsyncUpdate] ∧
    (m.handleMessageFromSlave (PluginScannerSlave.sendState "finished")).self.running =
      true ∧
    ((m.handleMessageFromSlave (PluginScannerSlave.sendState "finished")).self.handleAsyncUpdate
        recreateFromXml env list) =
      { list := list,
        master := some { m with running := false, slaveState := "idle" },
        effects := [Effect.dbg "[EL] slave finished scanning",
                    Effect.audioPluginScanFinished] } ∧
    ((m.handleMessageFromSlave (PluginScannerSlave.sendState "finished")).effects ++
      ((m.handleMessageFromSlave
        (PluginScannerSlave.sendState "finished")).self.handleAsyncUpdate
          recreateFromXml env list).effects).count Effect.audioPluginScanFinished = 1 ∧
    ∀ x ∈ (m.handleMessageFromSlave (PluginScannerSlave.sendState "finished")).effects ++
      ((m.handleMessageFromSlave
        (PluginScannerSlave.sendState "finished")).self.handleAsyncUpdate
          recreateFromXml env list).effects,
      x.isLaunch = false ∧ x.isSend = false := by
  have hd : MemoryBlock.toString (PluginScannerSlave.sendState "finished") =
      "state:finished" := by decide
  have h1 : upToFirstOccurrenceOf "state:finished" ":" = "state" := by decide
  have h2 : fromFirstOccurrenceOf "state:finished" ":" = "finished" := by decide
  have e1 : (m.handleMessageFromSlave (PluginScannerSlave.sendState "finished")) =
      { value := (), self := { m with slaveState := "finished" },
        effects := [Effect.triggerAsyncUpdate] } := by
    simp [handleMessageFromSlave, hd, h1, h2, hs]
  have e2 : ({ m with slaveState := "finished" } : PluginScannerMaster).handleAsyncUpdate
        recreateFromXml env list =
      { list := list,
        master := some { m with running := false, slaveState := "idle" },
        effects := [Effect.dbg "[EL] slave finished scanning",
                    Effect.audioPluginScanFinished] } := by
    simp [handleAsyncUpdate, getSlaveState, isRunning]
  rw [e1, e2]
  have hc : ([Effect.triggerAsyncUpdate] ++
      [Effect.dbg "[EL] slave finished scanning", Effect.audioPluginScanFinished]).count
        Effect.audioPluginScanFinished = 1 := by decide
  refine ⟨rfl, hr, rfl, hc, ?_⟩
  intro x hx
  simp only [List.cons_append, List.nil_append, List.mem_cons, List.mem_singleton,
    List.not_mem_nil, or_false] at hx
  rcases hx with rfl | rfl | rfl <;> exact ⟨rfl, rfl⟩

/-- C8, at the supervisor in the middle of a scan of "VST". -/
theorem finished_transition_witness :
    ((scanningMaster.handleMessageFromSlave
        (PluginScannerSlave.sendState "finished")).self.handleAsyncUpdate
          noRecreate envOk ()) =
      { list := (),
        master := some { scanningMaster with running := false, slaveState := "idle" },
        effects := [Effect.dbg "[EL] slave finished scanning",
                    Effect.audioPluginScanFinished] } :=
  (finished_transition noRecreate envOk () scanningMaster (by decide) (by decide)).2.2.1

/-! ## A backing file that does not parse -/

/-- C9: when `XmlDocument::parse` of the backing file yields nothing, the plugin
list is the same after `updateListAndLaunchSlave`, after any
`handleAsyncUpdate` (the crash recovery runs inside it) and after
`restoreAudioPlugins` (the reload when the scan finished). -/
theorem unparseable_file_keeps_list {X L : Type} (recreateFromXml : X → L → L)
    (scanInternalPlugins : L → L) (env : Env X) (list : L) (m : PluginScannerMaster)
    (h : env.parse = none) :
    (m.updateListAndLaunchSlave recreateFromXml env list).list = list ∧
    (m.handleAsyncUpdate recreateFromXml env list).list = list ∧
    PluginManager.restoreAudioPlugins recreateFromXml scanInternalPlugins env.parse list =
      list := by
  refine ⟨by simp [updateListAndLaunchSlave, h], ?_,
    by simp [PluginManager.restoreAudioPlugins, h]⟩
  unfold handleAsyncUpdate
  simp only [updateListAndLaunchSlave, h]
  split_ifs <;> rfl

/-- C9, at a list of two plugins, with a `recreateFromXml` that would replace
the list and a `scanInternalPlugins` that would add to it. -/
theorem unparseable_file_keeps_list_witness :
    envNoParse.parse = none ∧
    (scanningMaster.handleConnectionLost.self.updateListAndLaunchSlave replaceBy envNoParse
      ["a.vst", "b.vst"]).list = ["a.vst", "b.vst"] ∧
    (scanningMaster.handleConnectionLost.self.handleAsyncUpdate replaceBy envNoParse
      ["a.vst", "b.vst"]).list = ["a.vst", "b.vst"] ∧
    PluginManager.restoreAudioPlugins replaceBy (fun l => "internal" :: l)
      envNoParse.parse ["a.vst", "b.vst"] = ["a.vst", "b.vst"] :=
  ⟨rfl, unparseable_file_keeps_list replaceBy (fun l => "internal" :: l) envNoParse
    ["a.vst", "b.vst"] scanningMaster.handleConnectionLost.self rfl⟩

/-! ## A colon inside a payload -/

/-- C10: for a message type without a colon and a payload without whitespace at
either end (both free of NUL, as every `juce::String` is), the block the
worker's `sendString` builds is split by `handleMessageFromSlave`, at the first
colon, into exactly that type and exactly that payload, colons in the payload
included.  For the type "name" the supervisor notifies `audioPluginScanStarted`
with the payload and stores it as `pluginBeingScanned`, changing nothing else. -/
theorem sendString_handleMessageFromSlave (type payload : String)
    (hType : ':' ∉ type.data)
    (hTypeNul : '\x00' ∉ type.data) (hNul : '\x00' ∉ payload.data)
    (hhead : ∀ c, payload.data.head? = some c → isWhitespace c = false)
    (hlast : ∀ c, payload.data.getLast? = some c → isWhitespace c = false)
    (m : PluginScannerMaster) :
    upToFirstOccurrenceOf
      (MemoryBlock.toString (PluginScannerSlave.sendString type payload)) ":" = type ∧
    fromFirstOccurrenceOf
      (MemoryBlock.toString (PluginScannerSlave.sendString type payload)) ":" = payload ∧
    (m.handleMessageFromSlave (PluginScannerSlave.sendString "name" payload)).effects =
      [Effect.audioPluginScanStarted payload] ∧
    (m.handleMessageFromSlave (PluginScannerSlave.sendString "name" payload)).self =
      { m with pluginBeingScanned := payload } := by
  have hname : MemoryBlock.toString (PluginScannerSlave.sendString "name" payload) =
      "name" ++ ":" ++ payload :=
    toString_sendString "name" payload (by decide) hNul hhead hlast
  have hn1 : upToFirstOccurrenceOf ("name" ++ ":" ++ payload) ":" = "name" :=
    upToFirstOccurrenceOf_colon "name" payload (by decide)
  have hn2 : fromFirstOccurrenceOf ("name" ++ ":" ++ payload) ":" = payload :=
    fromFirstOccurrenceOf_colon "name" payload (by decide)
  rw [toString_sendString type payload hTypeNul hNul hhead hlast]
  refine ⟨upToFirstOccurrenceOf_colon type payload hType,
    fromFirstOccurrenceOf_colon type payload hType, ?_, ?_⟩
  · simp only [PluginScannerMaster.handleMessageFromSlave, hname, hn1, hn2,
      trim_eq_self payload hhead hlast]
    simp
  · simp only [PluginScannerMaster.handleMessageFromSlave, hname, hn1, hn2,
      trim_eq_self payload hhead hlast]
    simp

/-- C10, at a Windows path with two colons and a non-ASCII letter. -/
theorem sendString_handleMessageFromSlave_witness :
    upToFirstOccurrenceOf
      (MemoryBlock.toString
        (PluginScannerSlave.sendString "name" "C:\\Plug:ins\\é.dll")) ":" = "name" ∧
    fromFirstOccurrenceOf
      (MemoryBlock.toString
        (PluginScannerSlave.sendString "name" "C:\\Plug:ins\\é.dll")) ":" =
      "C:\\Plug:ins\\é.dll" ∧
    (PluginScannerMaster.new.handleMessageFromSlave
      (PluginScannerSlave.sendString "name" "C:\\Plug:ins\\é.dll")).effects =
      [Effect.audioPluginScanStarted "C:\\Plug:ins\\é.dll"] ∧
    (PluginScannerMaster.new.handleMessageFromSlave
      (PluginScannerSlave.sendString "name" "C:\\Plug:ins\\é.dll")).self =
      { PluginScannerMaster.new with pluginBeingScanned := "C:\\Plug:ins\\é.dll" } :=
  sendString_handleMessageFromSlave "name" "C:\\Plug:ins\\é.dll" (by decide) (by decide)
    (by decide) (by decide) (by decide) PluginScannerMaster.new

/-! ## The scan request on the worker's side -/

open PluginScannerSlave

/-- The characters `String.intercalate.go` produces. -/
theorem data_intercalate_go (acc s : String) (as : List String) :
    (String.intercalate.go acc s as).data =
      acc.data ++ as.flatMap fun a => s.data ++ a.data := by
  induction as generalizing acc with
  | nil => simp [String.intercalate.go]
  | cons a as ih => simp [String.intercalate.go, ih, String.data_append]

/-- The characters of a joined list that is not empty: the first string, then a
separator and a string for each of the others. -/
theorem data_joinIntoString_cons (a : String) (as : List String) (s : String) :
    (joinIntoString (a :: as) s).data =
      a.data ++ as.flatMap fun b => s.data ++ b.data := by
  simp [joinIntoString, String.intercalate, data_intercalate_go]

/-- A token free of break and quote characters ends where the text ends or at
the break character that follows it. -/
theorem findEndOfToken_token (brk quote : List Char) (token tail : List Char)
    (htoken : ∀ c ∈ token, c ∉ brk ∧ c ∉ quote)
    (htail : tail = [] ∨ ∃ b t, b ∈ brk ∧ tail = b :: t) :
    findEndOfToken brk quote none (token ++ tail) = (token, tail) := by
  induction token with
  | nil =>
    rcases htail with rfl | ⟨b, t, hb, rfl⟩
    · rfl
    · simp [findEndOfToken, hb]
  | cons c token ih =>
    have hc := htoken c (by simp)
    have := ih (fun d hd => htoken d (by simp [hd]))
    simp [findEndOfToken, hc.1, hc.2, this]

/-- Cutting a comma-joined list of strings that hold neither a comma nor a quote
gives the strings back. -/
theorem addTokensLoop_join (quote : List Char) (as : List String) :
    ∀ (a : String) (fuel : Nat), as.length < fuel →
      (∀ n ∈ a :: as, ∀ c ∈ n.data, c ∉ [','] ∧ c ∉ quote) →
      addTokensLoop [','] quote fuel
        (a.data ++ as.flatMap fun b => ",".data ++ b.data) = a :: as := by
  induction as with
  | nil =>
    intro a fuel hfuel h
    obtain ⟨fuel, rfl⟩ : ∃ k, fuel = k + 1 := ⟨fuel - 1, by simp at hfuel; omega⟩
    have := findEndOfToken_token [','] quote a.data [] (h a (by simp)) (Or.inl rfl)
    simp only [List.flatMap_nil, addTokensLoop, this]
  | cons b as ih =>
    intro a fuel hfuel h
    obtain ⟨fuel, rfl⟩ : ∃ k, fuel = k + 1 := ⟨fuel - 1, by simp at hfuel; omega⟩
    have ht := findEndOfToken_token [','] quote a.data
      (',' :: (b.data ++ as.flatMap fun b => ",".data ++ b.data)) (h a (by simp))
      (Or.inr ⟨',', _, by simp, rfl⟩)
    have hrest := ih b fuel (by simp at hfuel; omega)
      (fun n hn => h n (by simp at hn ⊢; tauto))
    have hd : (",".data : List Char) = [','] := rfl
    simp only [List.flatMap_cons, hd, List.cons_append, List.nil_append,
      List.append_assoc] at ht hrest ⊢
    simp only [addTokensLoop, ht, hrest]

/-- In front of a list that is not empty a character is not the last one. -/
theorem getLast?_cons_of_ne_nil (c : Char) (l : List Char) (h : l ≠ []) :
    (c :: l).getLast? = l.getLast? := by
  cases l with
  | nil => exact absurd rfl h
  | cons d l => simp

/-- The last character of a joined list is the last character of its last
string. -/
theorem getLast?_join (as : List String) :
    ∀ (a : String) (c : Char), (∀ n ∈ a :: as, n.data ≠ []) →
      (∀ n ∈ a :: as, ∀ d, n.data.getLast? = some d → isWhitespace d = false) →
      (a.data ++ as.flatMap fun b => ",".data ++ b.data).getLast? = some c →
      isWhitespace c = false := by
  induction as with
  | nil =>
    intro a c _ hl hc
    exact hl a (by simp) c (by simpa using hc)
  | cons b as ih =>
    intro a c hne hl hc
    apply ih b c (fun n hn => hne n (by simp at hn ⊢; tauto))
      (fun n hn => hl n (by simp at hn ⊢; tauto))
    have hd : (",".data : List Char) = [','] := rfl
    have hb : b.data ++ (as.flatMap fun b => ",".data ++ b.data) ≠ [] := by
      simp [hne b (by simp)]
    rw [List.flatMap_cons, List.getLast?_append_of_ne_nil _ (by simp [hd]), hd,
      List.singleton_append, List.cons_append, getLast?_cons_of_ne_nil _ _ hb] at hc
    exact hc

/-- A joined tail has at least one character for each of its strings. -/
theorem length_le_flatMap_join (as : List String) :
    as.length ≤ (as.flatMap fun b => ",".data ++ b.data).length := by
  induction as with
  | nil => simp
  | cons b as ih =>
    have h1 : (",".data : List Char).length = 1 := rfl
    rw [List.flatMap_cons, List.length_append, List.length_append, h1, List.length_cons]
    omega

/-- The worker's reading of a "scan" message whose text came through whole:
for format names that are not empty, hold no comma, no quote and no NUL, and
have no whitespace at either end, `formatsToScan` becomes the list the message
was joined from. -/
theorem handleMessageFromMaster_scan (names old : List String) (mb : MemoryBlock)
    (hmb : mb.toString = "scan:" ++ joinIntoString names ",")
    (hne : ∀ n ∈ names, n.data ≠ [])
    (hch : ∀ n ∈ names, ∀ c ∈ n.data, c ∉ [','] ∧ c ∉ "'".data)
    (hhead : ∀ n ∈ names, ∀ c, n.data.head? = some c → isWhitespace c = false)
    (hlast : ∀ n ∈ names, ∀ c, n.data.getLast? = some c → isWhitespace c = false) :
    handleMessageFromMaster mb old = (names, [SlaveCall.triggerAsyncUpdate]) := by
  have h1 : upToFirstOccurrenceOf ("scan" ++ ":" ++ joinIntoString names ",") ":" =
      "scan" := upToFirstOccurrenceOf_colon "scan" _ (by decide)
  have h2 : fromFirstOccurrenceOf ("scan" ++ ":" ++ joinIntoString names ",") ":" =
      joinIntoString names "," := fromFirstOccurrenceOf_colon "scan" _ (by decide)
  have hs : ("scan:" : String) = "scan" ++ ":" := by decide
  have htok : fromTokens (trim (joinIntoString names ",")) "," "'" = names := by
    cases names with
    | nil => decide
    | cons a as =>
      have hd := data_joinIntoString_cons a as ","
      have htrim : trim (joinIntoString (a :: as) ",") = joinIntoString (a :: as) "," := by
        apply trim_eq_self
        · intro c hc
          rw [hd, List.head?_append_of_ne_nil _ (hne a (by simp))] at hc
          exact hhead a (by simp) c hc
        · intro c hc
          rw [hd] at hc
          exact getLast?_join as a c hne hlast hc
      have hnil : (joinIntoString (a :: as) ",").data ≠ [] := by
        rw [hd]; simp [hne a (by simp)]
      have hlen : as.length <
          (a.data ++ as.flatMap fun b => ",".data ++ b.data).length + 1 := by
        have := length_le_flatMap_join as
        rw [List.length_append]
        omega
      rw [htrim]
      unfold fromTokens
      rw [if_neg hnil]
      have hc : (",".data : List Char) = [','] := rfl
      rw [hc, hd]
      exact addTokensLoop_join "'".data as a _ hlen hch
  unfold handleMessageFromMaster
  simp only [hmb, hs, h1, h2, htok]
  simp

/-- A character of a joined list is the comma or a character of one of the
strings. -/
theorem mem_data_joinIntoString (names : List String) (c : Char)
    (h : c ∈ (joinIntoString names ",").data) :
    c = ',' ∨ ∃ n ∈ names, c ∈ n.data := by
  cases names with
  | nil => simp [joinIntoString, String.intercalate] at h
  | cons a as =>
    rw [data_joinIntoString_cons] at h
    have hd : (",".data : List Char) = [','] := rfl
    simp only [hd, List.mem_append, List.mem_flatMap, List.mem_singleton] at h
    rcases h with h | ⟨b, hb, h | h⟩
    · exact Or.inr ⟨a, by simp, h⟩
    · exact Or.inl h
    · exact Or.inr ⟨b, by simp [hb], h⟩

/-- A string of characters below 128 takes one byte of UTF-8 for each
character. -/
theorem getNumBytesAsUTF8_ascii (s : String) (h : ∀ c ∈ s.data, c.toNat < 128) :
    getNumBytesAsUTF8 s = s.length := by
  rw [show s.length = s.data.length from rfl]
  unfold getNumBytesAsUTF8 toRawUTF8
  generalize s.data = cs at h
  induction cs with
  | nil => rfl
  | cons c cs ih =>
    have hc : c.toNat < 128 := h c (by simp)
    have hw : utf8Write c.toNat = [c.toNat] := by simp [utf8Write, hc]
    simp only [List.flatMap_cons, hw, List.singleton_append, List.length_cons]
    rw [ih (fun d hd => h d (by simp [hd]))]

/-- With the size in bytes as the size of the block, the scan request is read
by the worker as the list of format names it was built from. -/
theorem scan_request_in_bytes_round_trips (names old : List String)
    (hne : ∀ n ∈ names, n.data ≠ [])
    (hch : ∀ n ∈ names, ∀ c ∈ n.data, c ∉ [','] ∧ c ∉ "'".data)
    (hnul : ∀ n ∈ names, '\x00' ∉ n.data)
    (hhead : ∀ n ∈ names, ∀ c, n.data.head? = some c → isWhitespace c = false)
    (hlast : ∀ n ∈ names, ∀ c, n.data.getLast? = some c → isWhitespace c = false) :
    handleMessageFromMaster
      (MemoryBlock.copyOf (toRawUTF8 ("scan:" ++ joinIntoString names ","))
        (getNumBytesAsUTF8 ("scan:" ++ joinIntoString names ","))) old =
      (names, [SlaveCall.triggerAsyncUpdate]) := by
  apply handleMessageFromMaster_scan names old _ _ hne hch hhead hlast
  apply toString_toRawUTF8
  intro h
  rw [String.data_append, List.mem_append] at h
  rcases h with h | h
  · revert h; decide
  · rcases mem_data_joinIntoString names _ h with h | ⟨n, hn, h⟩
    · revert h; decide
    · exact hnul n hn h

/-- For format names of characters below 128 the character count is the byte
count, and the scan request the supervisor sends is read by the worker as the
list of format names. -/
theorem scan_request_ascii_round_trips (names old : List String)
    (hne : ∀ n ∈ names, n.data ≠ [])
    (hch : ∀ n ∈ names, ∀ c ∈ n.data, c ∉ [','] ∧ c ∉ "'".data)
    (hnul : ∀ n ∈ names, '\x00' ∉ n.data)
    (hascii : ∀ n ∈ names, ∀ c ∈ n.data, c.toNat < 128)
    (hhead : ∀ n ∈ names, ∀ c, n.data.head? = some c → isWhitespace c = false)
    (hlast : ∀ n ∈ names, ∀ c, n.data.getLast? = some c → isWhitespace c = false) :
    handleMessageFromMaster (scanRequest names) old =
      (names, [SlaveCall.triggerAsyncUpdate]) := by
  have hlen : getNumBytesAsUTF8 ("scan:" ++ joinIntoString names ",") =
      ("scan:" ++ joinIntoString names ",").length := by
    apply getNumBytesAsUTF8_ascii
    intro c h
    rw [String.data_append, List.mem_append] at h
    rcases h with h | h
    · revert c; decide
    · rcases mem_data_joinIntoString names _ h with h | ⟨n, hn, h⟩
      · rw [h]; decide
      · exact hascii n hn c h
  unfold scanRequest
  rw [← hlen]
  exact scan_request_in_bytes_round_trips names old hne hch hnul hhead hlast

/-- C11, at the format list where the claim fails, "é" and "VST".  The message
"scan:é,VST" has 10 characters and 11 bytes of UTF-8; `handleAsyncUpdate` passes
`msg.length ()`, the 10, as the size of the block, so the block lacks the last
byte and the worker's `handleMessageFromMaster` sets `formatsToScan` to "é" and
"VS". -/
theorem scan_request_loses_last_byte :
    "scan:" ++ joinIntoString ["é", "VST"] "," = "scan:é,VST" ∧
    getNumBytesAsUTF8 "scan:é,VST" = 11 ∧
    ("scan:é,VST" : String).length = 10 ∧
    scanRequest ["é", "VST"] = [115, 99, 97, 110, 58, 195, 169, 44, 86, 83] ∧
    (handleMessageFromMaster (scanRequest ["é", "VST"]) []).1 = ["é", "VS"] := by
  decide

/-! ## A new scan from the front end -/

/-- C12, at a state where the claim fails: a scanner whose supervisor is in the
middle of a scan of "VST" is asked to scan "AudioUnit".  The calls made are the
quit message, the deletion of the backing file and the launch; no
`PluginScannerMaster` is constructed, the scan is started on the supervisor
that was there. -/
theorem scanForAudioPlugins_keeps_supervisor :
    (requested ["VST"]).master.isSome = true ∧
    ((requested ["VST"]).scanForAudioPlugins envOk ["AudioUnit"]).2 =
      [ScannerCall.master (Effect.sendMessageToSlave [113, 117, 105, 116]),
       ScannerCall.deleteSlavePluginListFile,
       ScannerCall.master (Effect.launchSlaveProcess EL_PLUGIN_SCANNER_DEFAULT_TIMEOUT 0)] ∧
    ScannerCall.newPluginScannerMaster ∉
      ((requested ["VST"]).scanForAudioPlugins envOk ["AudioUnit"]).2 := by
  decide

/-- C12 as amended: `scanForAudioPlugins` constructs a `PluginScannerMaster`
only when the scanner owns none, and starts the scan on it.  When the scanner
owns a supervisor, it sends that one the quit message, deletes the backing file
and starts the scan on the same supervisor, with the members as
`sendQuitMessage` left them; no supervisor is discarded or constructed. -/
theorem scanForAudioPlugins_supervisor {X L : Type} (env : Env X)
    (formats : List String) (o : PluginScanner L) :
    (o.master = none →
      o.scanForAudioPlugins env formats =
        ({ o with master := some (PluginScannerMaster.new.startScanning env formats).self },
         [ScannerCall.deleteSlavePluginListFile, ScannerCall.newPluginScannerMaster,
          ScannerCall.master
            (Effect.launchSlaveProcess EL_PLUGIN_SCANNER_DEFAULT_TIMEOUT 0)])) ∧
    (∀ m, o.master = some m →
      o.scanForAudioPlugins env formats =
        ({ o with
            master := some ((m.sendQuitMessage env).self.startScanning env formats).self },
         [ScannerCall.master (Effect.sendMessageToSlave (toRawUTF8 "quit")),
          ScannerCall.deleteSlavePluginListFile,
          ScannerCall.master
            (Effect.launchSlaveProcess EL_PLUGIN_SCANNER_DEFAULT_TIMEOUT 0)])) := by
  have hq : List.take 4 (toRawUTF8 "quit") = toRawUTF8 "quit" := by decide
  constructor
  · intro hm
    simp [PluginScanner.scanForAudioPlugins, PluginScanner.cancel, hm,
      PluginScannerMaster.new, isRunning, startScanning, launchScanner]
  · intro m hm
    simp [PluginScanner.scanForAudioPlugins, PluginScanner.cancel, hm, sendQuitMessage,
      isRunning, startScanning, launchScanner, MemoryBlock.copyOf, hq]

/-! ## Notifications and the critical section -/

/-- The calls among the steps of `handleMessageFromSlave` are the calls of
`handleMessageFromSlave`. -/
theorem callsOf_handleMessageFromSlaveSteps (mb : MemoryBlock) (m : PluginScannerMaster) :
    callsOf (m.handleMessageFromSlaveSteps mb) = (m.handleMessageFromSlave mb).effects := by
  unfold handleMessageFromSlaveSteps handleMessageFromSlave
  simp only []
  split_ifs <;> rfl

/-- The calls among the steps of `handleAsyncUpdate` are the calls of
`handleAsyncUpdate`. -/
theorem callsOf_handleAsyncUpdateSteps {X L : Type} (recreateFromXml : X → L → L)
    (env : Env X) (list : L) (m : PluginScannerMaster) :
    callsOf m.handleAsyncUpdateSteps =
      (m.handleAsyncUpdate recreateFromXml env list).effects := by
  unfold handleAsyncUpdateSteps handleAsyncUpdate
  simp only [updateListAndLaunchSlaveSteps, updateListAndLaunchSlave, launchScanner,
    lockedRead, getSlaveState, isRunning]
  cases hr : m.running <;> split_ifs <;> simp_all [callsOf]

/-- C13, at messages where the second half of the claim fails: for a "name" and
for a "progress" message, `audioPluginScanStarted` and `audioPluginScanProgress`
are called by `handleMessageFromSlave` itself, that is on the thread that
delivered the worker's message and before the handler returns. -/
theorem scan_started_notified_in_message_handler :
    (scanningMaster.handleMessageFromSlave
      (PluginScannerSlave.sendString "name" "a.vst")).effects =
      [Effect.audioPluginScanStarted "a.vst"] ∧
    (scanningMaster.handleMessageFromSlave
      (PluginScannerSlave.sendString "progress" "0.5")).effects =
      [Effect.audioPluginScanProgress (Progress.ofVar "0.5")] := by
  decide

/-- C13 as amended: in `handleMessageFromSlave` and in `handleAsyncUpdate` every
listener notification is made at a step where the critical section is not
held.  Of the three, only `audioPluginScanFinished` is deferred: it is never
called by `handleMessageFromSlave`, and it is the only notification
`handleAsyncUpdate` makes; the other two are called directly by
`handleMessageFromSlave`. -/
theorem notifications_outside_lock (mb : MemoryBlock) (m : PluginScannerMaster) :
    notifiesUnlocked 0 (m.handleMessageFromSlaveSteps mb) = true ∧
    notifiesUnlocked 0 m.handleAsyncUpdateSteps = true ∧
    Effect.audioPluginScanFinished ∉ callsOf (m.handleMessageFromSlaveSteps mb) ∧
    ∀ e ∈ callsOf m.handleAsyncUpdateSteps,
      e.isNotification = true → e = Effect.audioPluginScanFinished := by
  refine ⟨?_, ?_, ?_, ?_⟩
  · unfold handleMessageFromSlaveSteps
    simp only []
    split_ifs <;> simp [notifiesUnlocked, Effect.isNotification]
  · unfold handleAsyncUpdateSteps
    simp only [updateListAndLaunchSlaveSteps, lockedRead]
    split_ifs <;> simp [notifiesUnlocked, Effect.isNotification]
  · unfold handleMessageFromSlaveSteps
    simp only []
    split_ifs <;> simp [callsOf]
  · unfold handleAsyncUpdateSteps
    simp only [updateListAndLaunchSlaveSteps, lockedRead]
    split_ifs <;> simp [callsOf, Effect.isNotification]

/-! ## Name and progress messages of a format pass -/

/-- The marks of two runs of calls are the marks of the first, then those of the
second. -/
theorem marks_append (a b : List SlaveCall) : marks (a ++ b) = marks a ++ marks b := by
  induction a with
  | nil => rfl
  | cons c a ih =>
    cases c with
    | sendString type message =>
      simp only [List.cons_append, marks]
      split_ifs <;> simp [ih]
    | exit status => simpa [marks] using ih
    | triggerAsyncUpdate => simpa [marks] using ih
    | addToBlacklist file => simpa [marks] using ih
    | writePluginListNow => simpa [marks] using ih

/-- Blacklisting leaves no mark. -/
theorem marks_addToBlacklist (files : List String) :
    marks (files.map SlaveCall.addToBlacklist) = [] := by
  induction files with
  | nil => rfl
  | cons f files ih => simpa [marks] using ih

/-- A round of `doNextScan` returns what `scanNextFile` returns, leaves the
scanner where `scanNextFile` leaves it, and marks a name, followed by a write of
the list when it returns true. -/
theorem doNextScan_marks {S : Type} (scanner : PluginDirectoryScanner S) (s : S) :
    (doNextScan scanner s).1 = (scanner.scanNextFile s).1 ∧
    (doNextScan scanner s).2.1 = (scanner.scanNextFile s).2 ∧
    marks (doNextScan scanner s).2.2 =
      if (scanner.scanNextFile s).1 then [Mark.name, Mark.persisted] else [Mark.name] := by
  unfold doNextScan
  cases h : (scanner.scanNextFile s).1 <;>
    simp [h, marks, marks_append, marks_addToBlacklist]

/-- The loop of `scanFor` ends once `scanNextFile` returns false, given fuel for
that many rounds, and leaves `n` times name, persisted, progress and then the
name of the round that ended it. -/
theorem scanLoop_marks {S : Type} (scanner : PluginDirectoryScanner S) (n : Nat) :
    ∀ (s : S) (fuel : Nat),
      (∀ i < n, (scanner.scanNextFile (stateAfter scanner i s)).1 = true) →
      (scanner.scanNextFile (stateAfter scanner n s)).1 = false →
      n < fuel →
      ∃ calls, scanLoop scanner fuel s = some calls ∧
        marks calls =
          (List.replicate n [Mark.name, Mark.persisted, Mark.progress]).flatten ++
            [Mark.name] := by
  induction n with
  | zero =>
    intro s fuel _ hfalse hfuel
    obtain ⟨fuel, rfl⟩ : ∃ k, fuel = k + 1 := ⟨fuel - 1, by omega⟩
    simp only [stateAfter] at hfalse
    obtain ⟨h1, _, h3⟩ := doNextScan_marks scanner s
    refine ⟨(doNextScan scanner s).2.2, ?_, ?_⟩
    · simp [scanLoop, h1, hfalse]
    · simp [h3, hfalse]
  | succ n ih =>
    intro s fuel htrue hfalse hfuel
    obtain ⟨fuel, rfl⟩ : ∃ k, fuel = k + 1 := ⟨fuel - 1, by omega⟩
    have h0 : (scanner.scanNextFile s).1 = true := htrue 0 (by omega)
    obtain ⟨h1, h2, h3⟩ := doNextScan_marks scanner s
    obtain ⟨rest, hrest, hmarks⟩ := ih (scanner.scanNextFile s).2 fuel
      (fun i hi => htrue (i + 1) (by omega)) hfalse (by omega)
    refine ⟨(doNextScan scanner s).2.2 ++
      SlaveCall.sendString "progress" (scanner.getProgress (doNextScan scanner s).2.1) ::
        rest, ?_, ?_⟩
    · simp [scanLoop, h1, h0, h2, hrest]
    · simp [marks_append, h3, h0, marks, hmarks, List.replicate_succ]

/-- C14, at a pass where the claim fails: over two files the worker sends the
name of the first candidate, writes the list and sends a progress, then sends
the name of the last candidate, for which `scanNextFile` returns false: no
progress follows it, only the write at the end of the pass.  Two name messages,
one progress message. -/
theorem last_name_has_no_progress :
    scanFor (directoryScanner ["a.vst", "b.vst"]) 2 true 2 =
      some [SlaveCall.sendString "name" "b.vst",
            SlaveCall.writePluginListNow,
            SlaveCall.sendString "progress" "1/2",
            SlaveCall.sendString "name" "a.vst",
            SlaveCall.writePluginListNow] ∧
    ((scanFor (directoryScanner ["a.vst", "b.vst"]) 2 true 2).map fun calls =>
      ((marks calls).count Mark.name, (marks calls).count Mark.progress)) =
      some (2, 1) := by
  decide

/-- C14 as amended: in a format pass with `plugins` and `settings` set, over a
scanner whose `scanNextFile` returns true `n` times and then false, `scanFor`
returns (given fuel for `n + 1` rounds) and its name messages, progress messages
and writes of the plugin list come in this order: `n` times a name, a write and
a progress, then one more name and the final write.  Every name message but the
last is followed, after the list was persisted, by a progress message; the last
one is followed by none, so the pass emits `n + 1` name messages and `n`
progress messages. -/
theorem scanFor_marks {S : Type} (scanner : PluginDirectoryScanner S) (s : S)
    (n fuel : Nat)
    (htrue : ∀ i < n, (scanner.scanNextFile (stateAfter scanner i s)).1 = true)
    (hfalse : (scanner.scanNextFile (stateAfter scanner n s)).1 = false)
    (hfuel : n < fuel) :
    ∃ calls, scanFor scanner fuel true s = some calls ∧
      marks calls =
        (List.replicate n [Mark.name, Mark.persisted, Mark.progress]).flatten ++
          [Mark.name, Mark.persisted] ∧
      (marks calls).count Mark.name = n + 1 ∧
      (marks calls).count Mark.progress = n := by
  obtain ⟨calls, hcalls, hmarks⟩ := scanLoop_marks scanner n s fuel htrue hfalse hfuel
  have hshape : marks (calls ++ [SlaveCall.writePluginListNow]) =
      (List.replicate n [Mark.name, Mark.persisted, Mark.progress]).flatten ++
        [Mark.name, Mark.persisted] := by
    simp [marks_append, hmarks, marks]
  refine ⟨_, by simp [scanFor, hcalls], hshape, ?_, ?_⟩
  · rw [hshape]
    clear hshape hmarks hcalls htrue hfalse hfuel
    induction n with
    | zero => decide
    | succ n ih =>
      simp only [List.replicate_succ, List.flatten_cons, List.append_assoc,
        List.cons_append, List.nil_append] at ih ⊢
      simp [List.count_cons, ih]
  · rw [hshape]
    clear hshape hmarks hcalls htrue hfalse hfuel
    induction n with
    | zero => decide
    | succ n ih =>
      simp only [List.replicate_succ, List.flatten_cons, List.append_assoc,
        List.cons_append, List.nil_append] at ih ⊢
      simp [List.count_cons, ih]

/-- C14 as amended, at a pass over three files. -/
theorem scanFor_marks_witness :
    ∃ calls, scanFor (directoryScanner ["a.vst", "b.vst", "c.vst"]) 3 true 3 = some calls ∧
      marks calls =
        (List.replicate 2 [Mark.name, Mark.persisted, Mark.progress]).flatten ++
          [Mark.name, Mark.persisted] ∧
      (marks calls).count Mark.name = 2 + 1 ∧
      (marks calls).count Mark.progress = 2 :=
  scanFor_marks (directoryScanner ["a.vst", "b.vst", "c.vst"]) 3 2 3 (by decide)
    (by decide) (by decide)

/-! ## The dead man's pedal on load -/

/-- Blacklisting a plugin that is blacklisted already changes nothing. -/
theorem addToBlacklist_of_mem {T : Type} (list : KnownPluginList T) (pluginID : String)
    (h : pluginID ∈ list.blacklist) : list.addToBlacklist pluginID = list := by
  simp [KnownPluginList.addToBlacklist, h]

/-- After blacklisting a plugin it is on the blacklist. -/
theorem mem_addToBlacklist {T : Type} (list : KnownPluginList T) (pluginID : String) :
    pluginID ∈ (list.addToBlacklist pluginID).blacklist := by
  unfold KnownPluginList.addToBlacklist
  split_ifs with h
  · exact h
  · simp

/-- What `updateBlacklistedAudioPlugins` does: it returns whether the file
exists; the file is gone afterwards; the entries of an existing file are applied
to the blacklist, and without a file the list stays as it was. -/
theorem updateBlacklistedAudioPlugins_spec {T : Type} (allPlugins : KnownPluginList T)
    (deadAudioPlugins : Option (List String)) :
    (updateBlacklistedAudioPlugins allPlugins deadAudioPlugins).1 =
      deadAudioPlugins.isSome ∧
    (updateBlacklistedAudioPlugins allPlugins deadAudioPlugins).2.2 = none ∧
    (∀ crashedPlugins, deadAudioPlugins = some crashedPlugins →
      (updateBlacklistedAudioPlugins allPlugins deadAudioPlugins).2.1 =
        applyBlacklistingsFromDeadMansPedal allPlugins crashedPlugins) ∧
    (deadAudioPlugins = none →
      (updateBlacklistedAudioPlugins allPlugins deadAudioPlugins).2.1 = allPlugins) := by
  cases deadAudioPlugins <;> simp [updateBlacklistedAudioPlugins]

/-- C15, at the files where the claim fails: with a dead man's pedal file that
exists and lists nothing, and with one that lists a plugin which is blacklisted
already, `updateBlacklistedAudioPlugins` returns true although the plugin list
after the call is the list before it. -/
theorem updateBlacklistedAudioPlugins_true_without_change {T : Type}
    (allPlugins : KnownPluginList T) :
    updateBlacklistedAudioPlugins allPlugins (some []) = (true, allPlugins, none) ∧
    updateBlacklistedAudioPlugins
      (allPlugins.addToBlacklist "crash.vst") (some ["crash.vst"]) =
      (true, allPlugins.addToBlacklist "crash.vst", none) := by
  refine ⟨rfl, ?_⟩
  simp only [updateBlacklistedAudioPlugins, applyBlacklistingsFromDeadMansPedal,
    List.foldl]
  rw [addToBlacklist_of_mem _ _ (mem_addToBlacklist allPlugins "crash.vst")]

end Element
